import Mathlib

/-!
# HemaV MedAssist chat client: message lifecycle and request gating

A shallow embedding of `app/static/js/app.js`.

* JavaScript strings are sequences of UTF-16 code units, so `length` and
  `substring` count code units; `JsString` is a list of code units and `utf16`
  encodes the literals of the source.
* A parsed response body is an arbitrary JSON value (`JsVal`).  Property
  access, truthiness, `ToString` and `ToNumber` follow ECMAScript on such values; a
  `TypeError` is the `error` branch of `Except`.
* A JSON number is carried as the record of what the page can observe of it
  (`JsNumber`), and the conversion of a string to a number is a parameter
  (`toNum`): floating point arithmetic is outside the embedding.
* The page is a `State`: the `isProcessing` flag, the controls, the children of
  `#chat-messages`, the stored key and the requests that are in flight.  An
  `async` function is split at its suspension: `sendQuery` runs up to the call of
  `fetch`, `complete` runs the rest once the network call has an `Outcome`.
* `Date.now()` is read from the environment, so every function that calls it
  takes the value it reads as an argument.
* The question field is a `textarea`: what is written to it reads back with
  its line breaks normalised (`normalizeNewlines`).
* `document.getElementById` is looked up among the messages of the transcript:
  the ids `msg-…` and `loading-…` are taken not to occur elsewhere on the page,
  nor inside the markup of a message.
-/

set_option autoImplicit false

namespace HemaV

/-! ## Strings -/

/-- One UTF-16 code unit. -/
abbrev CodeUnit := Nat

/-- A JavaScript string: its sequence of UTF-16 code units. -/
abbrev JsString := List CodeUnit

/-- The code units of one Unicode scalar value. -/
def utf16Char (c : Char) : JsString :=
  if c.toNat < 65536 then [c.toNat]
  else [55296 + (c.toNat - 65536) / 1024, 56320 + (c.toNat - 65536) % 1024]

/-- The JavaScript string written as the literal `s`. -/
def utf16 (s : String) : JsString := s.toList.flatMap utf16Char

/-- The decimal digits of a non-negative integer, as `String(n)` gives them. -/
def decimal (n : Nat) : JsString := (Nat.toDigits 10 n).map Char.toNat

/-- White space and line terminators of ECMAScript, the code units `trim` strips. -/
def isJsSpace (u : CodeUnit) : Bool :=
  u == 9 || u == 10 || u == 11 || u == 12 || u == 13 || u == 32 || u == 160 ||
  u == 5760 || (8192 ≤ u && u ≤ 8202) || u == 8232 || u == 8233 || u == 8239 ||
  u == 8287 || u == 12288 || u == 65279

/-- The method `String.prototype.trim`. -/
def jsTrim (s : JsString) : JsString :=
  ((s.dropWhile isJsSpace).reverse.dropWhile isJsSpace).reverse

/-- The method `Array.prototype.join` on strings. -/
def joinWith (sep : JsString) : List JsString → JsString
  | [] => []
  | [a] => a
  | a :: b :: rest => a ++ sep ++ joinWith sep (b :: rest)

/-- The value a `textarea` reads back: every CR LF pair and every other CR is
a LF. -/
def normalizeNewlines : JsString → JsString
  | [] => []
  | 13 :: 10 :: rest => 10 :: normalizeNewlines rest
  | 13 :: rest => 10 :: normalizeNewlines rest
  | u :: rest => u :: normalizeNewlines rest

/-! ## JSON values and the coercions of the language -/

/-- A JSON number, as far as the page observes it. -/
structure JsNumber where
  /-- The value of `String(n)`. -/
  text : JsString
  /-- Whether `n` is truthy (neither zero nor NaN). -/
  truthy : Bool
  /-- Whether `n > 0`. -/
  positive : Bool
  /-- The value of `(n * 100).toFixed(1)`. -/
  percent : JsString

/-- The number NaN. -/
def JsNumber.nan : JsNumber := ⟨utf16 "NaN", false, false, utf16 "NaN"⟩

/-- The number 0. -/
def JsNumber.zero : JsNumber := ⟨utf16 "0", false, false, utf16 "0.0"⟩

/-- The number 1. -/
def JsNumber.one : JsNumber := ⟨utf16 "1", true, true, utf16 "100.0"⟩

/-- A value as `response.json()` yields it, or `undefined`. -/
inductive JsVal where
  | undefined
  | null
  | bool (b : Bool)
  | num (n : JsNumber)
  | str (s : JsString)
  | arr (items : List JsVal)
  | obj (fields : List (JsString × JsVal))

/-- Whether an object has an own property `key`. -/
def hasKey (key : JsString) : List (JsString × JsVal) → Bool
  | [] => false
  | (k, _) :: rest => k == key || hasKey key rest

/-- The own property `key` of an object, `undefined` when there is none. -/
def lookupKey (key : JsString) : List (JsString × JsVal) → JsVal
  | [] => .undefined
  | (k, v) :: rest => if k == key then v else lookupKey key rest

/-- The property access `v.key`, for the keys the page reads (`answer`,
`sources`, `error`, `endee_connected`, `source`, `page`, `similarity`, `text`):
a `TypeError` on `null` and `undefined`, the own property on an object, and
`undefined` on every other value, none of whose prototypes has such a key. -/
def getProp (v : JsVal) (key : JsString) : Except Unit JsVal :=
  match v with
  | .undefined => .error ()
  | .null => .error ()
  | .obj fields => .ok (lookupKey key fields)
  | _ => .ok .undefined

/-- Truthiness of a value. -/
def truthy : JsVal → Bool
  | .undefined => false
  | .null => false
  | .bool b => b
  | .num n => n.truthy
  | .str s => !s.isEmpty
  | .arr _ => true
  | .obj _ => true

mutual
/-- The abstract operation `ToString`.  An array is joined with commas; a plain
object gives `[object Object]` unless an own property `toString` hides the
inherited method, in which case the conversion throws. -/
def toStr : JsVal → Except Unit JsString
  | .undefined => .ok (utf16 "undefined")
  | .null => .ok (utf16 "null")
  | .bool b => .ok (if b then utf16 "true" else utf16 "false")
  | .num n => .ok n.text
  | .str s => .ok s
  | .arr items => (itemTexts items).map (joinWith (utf16 ","))
  | .obj fields =>
    if hasKey (utf16 "toString") fields then .error () else .ok (utf16 "[object Object]")
/-- The texts `join` gives the elements of an array: empty for `null` and
`undefined`, `ToString` otherwise. -/
def itemTexts : List JsVal → Except Unit (List JsString)
  | [] => .ok []
  | .undefined :: rest => (itemTexts rest).map ([] :: ·)
  | .null :: rest => (itemTexts rest).map ([] :: ·)
  | x :: rest =>
    match toStr x, itemTexts rest with
    | .ok a, .ok b => .ok (a :: b)
    | _, _ => .error ()
end

/-- The abstract operation `ToNumber`; `toNum` converts a string.  An array or
an object is first converted to a primitive, which is its string. -/
def toNumber (toNum : JsString → JsNumber) : JsVal → Except Unit JsNumber
  | .undefined => .ok JsNumber.nan
  | .null => .ok JsNumber.zero
  | .bool b => .ok (if b then JsNumber.one else JsNumber.zero)
  | .num n => .ok n
  | .str s => .ok (toNum s)
  | v => (toStr v).map toNum

/-- The text a DOM attribute of type `DOMString?` receives: empty for `null`
and `undefined`, `ToString` otherwise. -/
def domText : JsVal → Except Unit JsString
  | .undefined => .ok []
  | .null => .ok []
  | v => toStr v

/-! ## The transcript -/

/-- A child of `#chat-messages`: a `div` of class `message` with the id and the
markup it was given. -/
structure Message where
  id : JsString
  html : JsString
deriving DecidableEq

/-- The children of `#chat-messages`, in document order. -/
abbrev Transcript := List Message

/-- Whether the element has the id `msgId`: its `id` attribute is `msgId`, and
`msgId` is not empty (an element whose `id` attribute is empty has no id). -/
def hasId (m : Message) (msgId : JsString) : Bool :=
  !msgId.isEmpty && m.id == msgId

/-- The position of the element `document.getElementById(msgId)` returns: the
first one in document order with that id, if there is one. -/
def getElementById (msgId : JsString) : Transcript → Option Nat
  | [] => none
  | m :: rest =>
    if hasId m msgId then some 0 else (getElementById msgId rest).map (· + 1)

/-- The function `removeMessage` (app.js 311-314). -/
def removeMessage (msgId : JsString) (doc : Transcript) : Transcript :=
  match getElementById msgId doc with
  | some el => doc.eraseIdx el
  | none => doc

/-- The function `escapeHtml` on one code unit: the serialisation of a text node
escapes the ampersand, the angle brackets and the no-break space. -/
def escapeUnit (u : CodeUnit) : JsString :=
  if u = 38 then utf16 "&amp;"
  else if u = 60 then utf16 "&lt;"
  else if u = 62 then utf16 "&gt;"
  else if u = 160 then utf16 "&nbsp;"
  else [u]

/-- The function `escapeHtml` (app.js 324-328): the text becomes the content of a
fresh `div`, whose `innerHTML` is read back. -/
def escapeHtml (text : JsString) : JsString := text.flatMap escapeUnit

/-- The content of a `source-text` element (app.js 247):
`escapeHtml(s.text.substring(0, 200))` then the marker when
`s.text.length > 200`. -/
def sourceText (text : JsString) : JsString :=
  escapeHtml (text.take 200) ++ (if text.length > 200 then utf16 "..." else [])

/-- The markup of a source up to its text (app.js 242-247). -/
def sourceHead (source page percent : JsString) : JsString :=
  utf16 "\n            <div class=\"source-item\">\n                <div class=\"source-meta\">\n                    <span class=\"source-file\">📄 "
    ++ source ++ utf16 " — Page " ++ page
    ++ utf16 "</span>\n                    <span class=\"source-similarity\">"
    ++ percent
    ++ utf16 "% match</span>\n                </div>\n                <div class=\"source-text\">"

/-- The markup of a source after its text (app.js 247-249). -/
def sourceTail : JsString :=
  utf16 "</div>\n            </div>\n        "

/-- The callback of `sources.map` (app.js 241-249) on one element `s`.  It
throws when `s` is `null`, when `s.text` is not a string, and when a
conversion throws. -/
def sourceItem (toNum : JsString → JsNumber) (s : JsVal) : Except Unit JsString := do
  let source ← toStr (← getProp s (utf16 "source"))
  let page ← toStr (← getProp s (utf16 "page"))
  let similarity ← toNumber toNum (← getProp s (utf16 "similarity"))
  match ← getProp s (utf16 "text") with
  | .str text => pure (sourceHead source page similarity.percent ++ sourceText text ++ sourceTail)
  | _ => throw ()

/-- The array `sources.map(...)`, element by element. -/
def sourceItems (toNum : JsString → JsNumber) : List JsVal → Except Unit (List JsString)
  | [] => pure []
  | s :: rest => do
    let item ← sourceItem toNum s
    let items ← sourceItems toNum rest
    pure (item :: items)

/-- The test `sources.length > 0` on a truthy value: the length of an array or
of a string, the own property `length` of an object, `undefined` otherwise. -/
def lengthPositive (toNum : JsString → JsNumber) : JsVal → Except Unit Bool
  | .arr items => pure (!items.isEmpty)
  | .str s => pure (!s.isEmpty)
  | .obj fields => (toNumber toNum (lookupKey (utf16 "length") fields)).map (·.positive)
  | _ => pure false

/-- The sources panel (app.js 251-259) around the joined items. -/
def sourcesPanel (count items : JsString) : JsString :=
  utf16 "\n            <div class=\"sources-panel\">\n                <button class=\"sources-toggle\" onclick=\"toggleSources(this)\">\n                    <span>📚 "
    ++ count
    ++ utf16 " Sources Retrieved from Endee</span>\n                    <svg width=\"16\" height=\"16\" viewBox=\"0 0 24 24\" fill=\"none\" stroke=\"currentColor\" stroke-width=\"2\"><polyline points=\"6 9 12 15 18 9\"></polyline></svg>\n                </button>\n                <div class=\"sources-list\">"
    ++ items
    ++ utf16 "</div>\n            </div>\n        "

/-- The value of `sourcesHtml` (app.js 239-260).  Only an array has a `map`
method: any other truthy value of positive length makes the call throw. -/
def sourcesHtml (toNum : JsString → JsNumber) (sources : JsVal) : Except Unit JsString := do
  if truthy sources then
    if ← lengthPositive toNum sources then
      match sources with
      | .arr items =>
        let rendered ← sourceItems toNum items
        pure (sourcesPanel (decimal items.length) (joinWith [] rendered))
      | _ => throw ()
    else pure []
  else pure []

/-- The markup of a message before its content (app.js 262-270). -/
def messageHead (isUser : Bool) : JsString :=
  utf16 "\n        <div class=\"message-header\">\n            <div class=\"message-avatar "
    ++ (if isUser then utf16 "user" else utf16 "assistant")
    ++ utf16 "\">\n                "
    ++ (if isUser then utf16 "You" else utf16 "🩺")
    ++ utf16 "\n            </div>\n            <span class=\"message-sender\">"
    ++ (if isUser then utf16 "You" else utf16 "HemaV MedAssist")
    ++ utf16 "</span>\n        </div>\n        <div class=\"message-body\">\n            <div class=\"message-content\">"

/-- The markup of a message after its content (app.js 270-273). -/
def messageTail (sourcesHtml : JsString) : JsString :=
  utf16 "</div>\n            " ++ sourcesHtml ++ utf16 "\n        </div>\n    "

/-- The content of a message (app.js 270): the escaped text in a paragraph for
the user, the value as it is for the assistant. -/
def messageContent (isUser : Bool) (content : JsVal) : Except Unit JsString := do
  if isUser then
    let text ← domText content
    pure (utf16 "<p>" ++ escapeHtml text ++ utf16 "</p>")
  else toStr content

/-- The function `addMessage` (app.js 231-278); `now` is the value of
`Date.now()`.  A missing `sources` argument is `undefined` and defaults to
`null`.  The element is appended last, so a call that throws appends nothing. -/
def addMessage (toNum : JsString → JsNumber) (now : Nat) (role : JsString)
    (content sources : JsVal) (doc : Transcript) : Except Unit (JsString × Transcript) := do
  let sources := match sources with
    | .undefined => JsVal.null
    | v => v
  let msgId := utf16 "msg-" ++ decimal now
  let isUser := role == utf16 "user"
  let panel ← sourcesHtml toNum sources
  let body ← messageContent isUser content
  pure (msgId, doc ++ [⟨msgId, messageHead isUser ++ body ++ messageTail panel⟩])

/-- The markup of the loading placeholder (app.js 288-303). -/
def loadingHtml : JsString :=
  utf16 "\n        <div class=\"message-header\">\n            <div class=\"message-avatar assistant\">🩺</div>\n            <span class=\"message-sender\">HemaV MedAssist</span>\n        </div>\n        <div class=\"message-body\">\n            <div class=\"message-content\">\n                <div class=\"typing-indicator\">\n                    <div class=\"dot\"></div>\n                    <div class=\"dot\"></div>\n                    <div class=\"dot\"></div>\n                </div>\n                <span style=\"font-size: 12px; color: var(--text-muted);\">Searching Endee vector database & generating answer...</span>\n            </div>\n        </div>\n    "

/-- The function `addLoadingMessage` (app.js 281-308). -/
def addLoadingMessage (now : Nat) (doc : Transcript) : JsString × Transcript :=
  let msgId := utf16 "loading-" ++ decimal now
  (msgId, doc ++ [⟨msgId, loadingHtml⟩])

/-! ## The session -/

/-- The object `payload` handed to `JSON.stringify` (app.js 198-202): the
property `api_key` is present or not. -/
structure Payload where
  question : JsString
  api_key : Option JsString
deriving DecidableEq

/-- A call of `sendQuery` suspended at `await fetch(...)`: the request it sent
and the id of its loading placeholder. -/
structure Request where
  loadingId : JsString
  payload : Payload
deriving DecidableEq

/-- The state of the page that the chat functions read and write. -/
structure State where
  /-- The variable `isProcessing`. -/
  isProcessing : Bool
  /-- The property `sendBtn.disabled`. -/
  sendDisabled : Bool
  /-- The property `queryInput.value` as it reads: the text of the field with
  its line breaks normalised. -/
  inputValue : JsString
  /-- The property `queryInput.style.height`. -/
  inputHeight : JsString
  /-- Whether the question field has the focus. -/
  inputFocused : Bool
  /-- The property `welcomeScreen.style.display`, `none` when the page has no
  welcome element. -/
  welcomeDisplay : Option JsString
  /-- The children of `chatMessages`. -/
  transcript : Transcript
  /-- The item `hemav_api_key` of `localStorage`. -/
  storedKey : Option JsString
  /-- The query requests sent and not yet completed, oldest first. -/
  inFlight : List Request
deriving DecidableEq

/-- The page as loaded: nothing typed, no message, no request. -/
def State.initial (storedKey : Option JsString) : State where
  isProcessing := false
  sendDisabled := false
  inputValue := []
  inputHeight := []
  inputFocused := false
  welcomeDisplay := some []
  transcript := []
  storedKey := storedKey
  inFlight := []

/-- The payload `sendQuery` builds (app.js 198-202): the key is added when
`storedKey` is truthy. -/
def buildPayload (question : JsString) (storedKey : Option JsString) : Payload :=
  match storedKey with
  | some key => if key.isEmpty then ⟨question, none⟩ else ⟨question, some key⟩
  | none => ⟨question, none⟩

/-- The function `sendQuery` (app.js 175-208) up to its suspension at
`await fetch(...)`; `now1` and `now2` are the two readings of `Date.now()`. -/
def sendQuery (toNum : JsString → JsNumber) (now1 now2 : Nat) (s : State) : State :=
  let question := jsTrim s.inputValue
  if question.isEmpty || s.isProcessing then s
  else
    let s1 := { s with
      isProcessing := true
      sendDisabled := true
      welcomeDisplay := s.welcomeDisplay.map (fun _ => utf16 "none") }
    match addMessage toNum now1 (utf16 "user") (.str question) .undefined s1.transcript with
    | .error _ => s1
    | .ok (_, doc1) =>
      let (loadingId, doc2) := addLoadingMessage now2 doc1
      { s1 with
        inputValue := []
        inputHeight := utf16 "auto"
        transcript := doc2
        inFlight := s1.inFlight ++ [⟨loadingId, buildPayload question s1.storedKey⟩] }

/-- The function `askQuestion` (app.js 107-110): the question is assigned to
the `textarea`, which reads back with its line breaks normalised. -/
def askQuestion (toNum : JsString → JsNumber) (question : JsString) (now1 now2 : Nat)
    (s : State) : State :=
  sendQuery toNum now1 now2 { s with inputValue := normalizeNewlines question }

/-- The function `startNewChat` (app.js 113-128); the switch to the chat tab is
not part of the state. -/
def startNewChat (s : State) : State :=
  { s with
    transcript := []
    welcomeDisplay := s.welcomeDisplay.map (fun _ => utf16 "block")
    isProcessing := false
    sendDisabled := false
    inputValue := []
    inputHeight := utf16 "auto" }

/-- The click handler of `saveSettingsBtn` (app.js 158-166); `value` is the
text of the key field. -/
def saveSettings (value : JsString) (s : State) : State :=
  let key := jsTrim value
  { s with storedKey := if key.isEmpty then none else some key }

/-- How the network call of a query or of the health check ends. -/
inductive Outcome where
  /-- The promise of `fetch` rejects: no response arrives. -/
  | fetchRejects
  /-- A response arrives, `ok` or not, and `response.json()` rejects. -/
  | jsonRejects (ok : Bool)
  /-- A response arrives, `ok` or not, whose body parses to `data`. -/
  | json (ok : Bool) (data : JsVal)

/-- The generic notice of app.js 218. -/
def genericError : JsString := utf16 "Something went wrong. Please try again."

/-- The content of the notice of app.js 218 around the error text. -/
def errorNotice (text : JsString) : JsString :=
  utf16 "<p style=\"color: #f87171;\">❌ " ++ text ++ utf16 "</p>"

/-- The content of the notice of app.js 222. -/
def connectError : JsString :=
  utf16 "<p style=\"color: #f87171;\">❌ Failed to connect to the server. Please check if the Flask app and Endee server are running.</p>"

/-- The value of the template of app.js 218: `data.error || generic` as text. -/
def errorContent (data : JsVal) : Except Unit JsString := do
  let err ← getProp data (utf16 "error")
  let text ← if truthy err then toStr err else pure genericError
  pure (errorNotice text)

/-- The branch on `response.ok` of app.js 215-219: the answer with its sources,
or the error notice. -/
def reply (toNum : JsString → JsNumber) (ok : Bool) (data : JsVal) (now : Nat)
    (doc : Transcript) : Except Unit (JsString × Transcript) :=
  if ok then do
    let answer ← getProp data (utf16 "answer")
    let sources ← getProp data (utf16 "sources")
    addMessage toNum now (utf16 "assistant") answer sources doc
  else do
    let content ← errorContent data
    addMessage toNum now (utf16 "assistant") (.str content) .undefined doc

/-- The `try` block of `sendQuery` after the suspension (app.js 204-219), on the
transcript.  The `error` branch is a throw and carries the transcript as the
throw leaves it; `now` is read by `addMessage`. -/
def tryBlock (toNum : JsString → JsNumber) (loadingId : JsString) (o : Outcome) (now : Nat)
    (doc : Transcript) : Except Transcript Transcript :=
  match o with
  | .fetchRejects => .error doc
  | .jsonRejects _ => .error doc
  | .json ok data =>
    let doc1 := removeMessage loadingId doc
    match reply toNum ok data now doc1 with
    | .ok (_, doc2) => .ok doc2
    | .error _ => .error doc1

/-- The `catch` block of `sendQuery` (app.js 220-222). -/
def catchBlock (toNum : JsString → JsNumber) (loadingId : JsString) (now : Nat)
    (doc : Transcript) : Transcript :=
  let doc1 := removeMessage loadingId doc
  match addMessage toNum now (utf16 "assistant") (.str connectError) .undefined doc1 with
  | .ok (_, doc2) => doc2
  | .error _ => doc1

/-- The transcript after the `try` and `catch` blocks; `now1` is read in the
`try` block and `now2` in the `catch` block. -/
def handleOutcome (toNum : JsString → JsNumber) (loadingId : JsString) (o : Outcome)
    (now1 now2 : Nat) (doc : Transcript) : Transcript :=
  match tryBlock toNum loadingId o now1 doc with
  | .ok doc1 => doc1
  | .error doc1 => catchBlock toNum loadingId now2 doc1

/-- The rest of `sendQuery` (app.js 204-227) for the in-flight request number
`i`, once its network call ends with `o`: the `try` and `catch` blocks, then
`finally`.  Nothing happens when there is no such request. -/
def complete (toNum : JsString → JsNumber) (i : Nat) (o : Outcome) (now1 now2 : Nat)
    (s : State) : State :=
  match s.inFlight[i]? with
  | none => s
  | some r =>
    { s with
      transcript := handleOutcome toNum r.loadingId o now1 now2 s.transcript
      inFlight := s.inFlight.eraseIdx i
      isProcessing := false
      sendDisabled := false
      inputFocused := true }

/-- What can happen to the session. -/
inductive Event where
  /-- The user edits the question field, which then holds `text`. -/
  | typeText (text : JsString)
  /-- The user submits: the send button or the Enter key calls `sendQuery`. -/
  | submit (now1 now2 : Nat)
  /-- A suggested question is clicked: `askQuestion`. -/
  | ask (question : JsString) (now1 now2 : Nat)
  /-- The network call of the in-flight request number `i` ends. -/
  | completion (i : Nat) (o : Outcome) (now1 now2 : Nat)
  /-- The new-chat button: `startNewChat`. -/
  | newChat
  /-- The settings are saved with `value` in the key field. -/
  | save (value : JsString)

/-- One event on the session. -/
def step (toNum : JsString → JsNumber) (s : State) : Event → State
  | .typeText text => { s with inputValue := normalizeNewlines text }
  | .submit now1 now2 => sendQuery toNum now1 now2 s
  | .ask question now1 now2 => askQuestion toNum question now1 now2 s
  | .completion i o now1 now2 => complete toNum i o now1 now2 s
  | .newChat => startNewChat s
  | .save value => saveSettings value s

/-- A sequence of events on the session, in order. -/
def run (toNum : JsString → JsNumber) (s : State) (events : List Event) : State :=
  events.foldl (step toNum) s

/-! ## The health check -/

/-- The two classes `checkHealth` sets on a status indicator. -/
structure Indicator where
  connected : Bool
  disconnected : Bool
deriving DecidableEq

/-- The status indicators of the page. -/
structure Health where
  endee : Indicator
  groq : Indicator
deriving DecidableEq

/-- The function `checkHealth` (app.js 81-104) once its network call ends.  The
status of the response is not read. -/
def checkHealth (o : Outcome) (h : Health) : Health :=
  let caught : Health :=
    { endee := { h.endee with disconnected := true }
      groq := { h.groq with disconnected := true } }
  match o with
  | .fetchRejects => caught
  | .jsonRejects _ => caught
  | .json _ data =>
    match getProp data (utf16 "endee_connected") with
    | .error _ => caught
    | .ok flag =>
      { endee := if truthy flag then ⟨true, false⟩ else ⟨false, true⟩
        groq := ⟨true, false⟩ }

/-! ## Vocabulary of the statements -/

/-- The id `addMessage` gives a message created at `now`. -/
def messageId (now : Nat) : JsString := utf16 "msg-" ++ decimal now

/-- The id `addLoadingMessage` gives a placeholder created at `now`. -/
def loadingId (now : Nat) : JsString := utf16 "loading-" ++ decimal now

/-- The markup of a user message with the text `text`. -/
def userHtml (text : JsString) : JsString :=
  messageHead true ++ (utf16 "<p>" ++ escapeHtml text ++ utf16 "</p>") ++ messageTail []

/-- The markup of an assistant message without sources whose content is `content`. -/
def assistantHtml (content : JsString) : JsString :=
  messageHead false ++ content ++ messageTail []

/-- A loading placeholder: an element whose id starts with `loading-`. -/
def isLoading (m : Message) : Bool := (utf16 "loading-").isPrefixOf m.id

/-- Whether an entity name of `escapeUnit` stands at the start of `rest`. -/
def entityFollows (rest : JsString) : Bool :=
  (utf16 "amp;").isPrefixOf rest || (utf16 "lt;").isPrefixOf rest ||
  (utf16 "gt;").isPrefixOf rest || (utf16 "nbsp;").isPrefixOf rest

/-- Text that a parser of HTML reads as character data only: no angle bracket,
and every ampersand starts one of the entities `&amp;`, `&lt;`, `&gt;`,
`&nbsp;`. -/
def markupFree : JsString → Bool
  | [] => true
  | u :: rest =>
    u != 60 && u != 62 && (u != 38 || entityFollows rest) && markupFree rest

/-- The character data a parser of HTML reads from text whose entities are
`&amp;`, `&lt;`, `&gt;` and `&nbsp;`: each entity is the character it names. -/
def unescapeHtml : JsString → JsString
  | [] => []
  | 38 :: 97 :: 109 :: 112 :: 59 :: rest => 38 :: unescapeHtml rest
  | 38 :: 108 :: 116 :: 59 :: rest => 60 :: unescapeHtml rest
  | 38 :: 103 :: 116 :: 59 :: rest => 62 :: unescapeHtml rest
  | 38 :: 110 :: 98 :: 115 :: 112 :: 59 :: rest => 160 :: unescapeHtml rest
  | u :: rest => u :: unescapeHtml rest

/-- A source as the query endpoint documents it. -/
structure Source where
  source : JsString
  page : JsNumber
  similarity : JsNumber
  text : JsString

/-- The value is a JSON object whose properties `source`, `page`, `similarity`
and `text` are those of `src`; it may have other properties. -/
def readsAs (v : JsVal) (src : Source) : Prop :=
  match v with
  | .obj fields =>
    lookupKey (utf16 "source") fields = .str src.source ∧
    lookupKey (utf16 "page") fields = .num src.page ∧
    lookupKey (utf16 "similarity") fields = .num src.similarity ∧
    lookupKey (utf16 "text") fields = .str src.text
  | _ => False

/-- The text shown for a source: the first 200 code units of its text,
escaped, and the marker when the text has more than 200 code units. -/
def Source.shownText (src : Source) : JsString :=
  escapeHtml (src.text.take 200) ++ (if 200 < src.text.length then utf16 "..." else [])

/-- The markup expected for a source. -/
def Source.markup (src : Source) : JsString :=
  sourceHead src.source src.page.text src.similarity.percent ++ src.shownText ++ sourceTail

/-- The sources panel expected for the sources `srcs`: none when there is no
source. -/
def expectedPanel (srcs : List Source) : JsString :=
  if srcs.isEmpty then []
  else sourcesPanel (decimal srcs.length) (srcs.map Source.markup).flatten

/-- The event is neither a completion nor the start of a new chat. -/
def Event.isQuiet : Event → Bool
  | .completion _ _ _ _ => false
  | .newChat => false
  | _ => true

/-- The event is the start of a new chat. -/
def Event.isNewChat : Event → Bool
  | .newChat => true
  | _ => false

/-- The discipline of the gate: at most one request is in flight, and none
while `isProcessing` is false. -/
def gated (s : State) : Prop :=
  s.inFlight.length ≤ 1 ∧ (s.isProcessing = false → s.inFlight = [])

/-- The conversion that takes every string for a non-numeric one; the closed
examples below put no string where a number is read, so that they do not
depend on it. -/
def noNumber : JsString → JsNumber := fun _ => JsNumber.nan

/-! ## Removing a message -/

theorem hasId_iff {m : Message} {msgId : JsString} (hne : msgId ≠ []) :
    hasId m msgId = true ↔ m.id = msgId := by
  cases msgId with
  | nil => exact absurd rfl hne
  | cons a b => simp [hasId]

theorem hasId_self {msgId html : JsString} (hne : msgId ≠ []) :
    hasId ⟨msgId, html⟩ msgId = true :=
  (hasId_iff hne).mpr rfl

theorem hasId_of_ne {m : Message} {msgId : JsString} (h : m.id ≠ msgId) :
    hasId m msgId = false := by
  simp [hasId, h]

theorem getElementById_eq_none {msgId : JsString} {doc : Transcript}
    (h : ∀ m ∈ doc, hasId m msgId = false) : getElementById msgId doc = none := by
  induction doc with
  | nil => rfl
  | cons m rest ih =>
    have hm : hasId m msgId = false := h m (List.mem_cons_self _ _)
    have hrest : ∀ x ∈ rest, hasId x msgId = false :=
      fun x hx => h x (List.mem_cons_of_mem _ hx)
    simp [getElementById, hm, ih hrest]

theorem removeMessage_nil (msgId : JsString) : removeMessage msgId [] = [] := rfl

theorem removeMessage_cons (msgId : JsString) (m : Message) (rest : Transcript) :
    removeMessage msgId (m :: rest) =
      if hasId m msgId then rest else m :: removeMessage msgId rest := by
  cases hm : hasId m msgId with
  | true => simp [removeMessage, getElementById, hm]
  | false =>
    cases hg : getElementById msgId rest <;>
      simp [removeMessage, getElementById, hm, hg]

theorem removeMessage_absent {msgId : JsString} {doc : Transcript}
    (h : ∀ m ∈ doc, hasId m msgId = false) : removeMessage msgId doc = doc := by
  simp [removeMessage, getElementById_eq_none h]

theorem removeMessage_append_hit {msgId : JsString} (doc : Transcript) (m : Message)
    (rest : Transcript) (h : ∀ x ∈ doc, hasId x msgId = false) (hm : hasId m msgId = true) :
    removeMessage msgId (doc ++ m :: rest) = doc ++ rest := by
  induction doc with
  | nil => simp [removeMessage_cons, hm]
  | cons x xs ih =>
    have hx : hasId x msgId = false := h x (List.mem_cons_self _ _)
    have hxs : ∀ y ∈ xs, hasId y msgId = false :=
      fun y hy => h y (List.mem_cons_of_mem _ hy)
    simp [removeMessage_cons, hx, ih hxs]

theorem removeMessage_keeps_others (msgId : JsString) (doc : Transcript) :
    (removeMessage msgId doc).filter (fun m => !hasId m msgId) =
      doc.filter (fun m => !hasId m msgId) := by
  induction doc with
  | nil => rfl
  | cons m rest ih =>
    rw [removeMessage_cons]
    cases hm : hasId m msgId with
    | true => simp [hm]
    | false => simp [hm, ih]

theorem removeMessage_eq_filter {msgId : JsString} {doc : Transcript}
    (h : (doc.map Message.id).Nodup) :
    removeMessage msgId doc = doc.filter (fun m => !hasId m msgId) := by
  induction doc with
  | nil => rfl
  | cons m rest ih =>
    rw [removeMessage_cons]
    have hnd : (m.id :: rest.map Message.id).Nodup := by simpa using h
    have hrest : (rest.map Message.id).Nodup := (List.nodup_cons.mp hnd).2
    have hnot : m.id ∉ rest.map Message.id := (List.nodup_cons.mp hnd).1
    cases hm : hasId m msgId with
    | true =>
      have hne : msgId ≠ [] := by
        intro h0
        simp [hasId, h0] at hm
      have hid : m.id = msgId := (hasId_iff hne).mp hm
      have hall : ∀ x ∈ rest, hasId x msgId = false := by
        intro x hx
        apply hasId_of_ne
        intro hxid
        exact hnot (by rw [hid, ← hxid]; exact List.mem_map_of_mem _ hx)
      have hfil : rest.filter (fun x => !hasId x msgId) = rest := by
        rw [List.filter_eq_self]
        intro x hx
        simp [hall x hx]
      simp [hm, hfil]
    | false => simp [hm, ih hrest]

/-! ## Appending a message -/

theorem addMessage_user (toNum : JsString → JsNumber) (now : Nat) (text : JsString)
    (doc : Transcript) :
    addMessage toNum now (utf16 "user") (.str text) .undefined doc =
      .ok (messageId now, doc ++ [⟨messageId now, userHtml text⟩]) := rfl

theorem addMessage_assistant (toNum : JsString → JsNumber) (now : Nat) (content : JsString)
    (doc : Transcript) :
    addMessage toNum now (utf16 "assistant") (.str content) .undefined doc =
      .ok (messageId now, doc ++ [⟨messageId now, assistantHtml content⟩]) := rfl

theorem addMessage_shape {toNum : JsString → JsNumber} {now : Nat} {role : JsString}
    {content sources : JsVal} {doc doc2 : Transcript} {msgId : JsString}
    (h : addMessage toNum now role content sources doc = .ok (msgId, doc2)) :
    msgId = messageId now ∧ ∃ body panel,
      doc2 = doc ++ [⟨messageId now,
        messageHead (role == utf16 "user") ++ body ++ messageTail panel⟩] := by
  unfold addMessage at h
  simp only [bind, Except.bind, pure, Except.pure] at h
  split at h
  · exact absurd h (by simp)
  · split at h
    · exact absurd h (by simp)
    · simp only [Except.ok.injEq, Prod.mk.injEq] at h
      exact ⟨h.1.symm, _, _, h.2.symm⟩

theorem isLoading_messageId (now : Nat) (html : JsString) :
    isLoading ⟨messageId now, html⟩ = false := rfl

theorem isLoading_loadingId (now : Nat) (html : JsString) :
    isLoading ⟨loadingId now, html⟩ = true := by
  simp [isLoading, loadingId, List.isPrefixOf]

theorem reply_shape {toNum : JsString → JsNumber} {ok : Bool} {data : JsVal} {now : Nat}
    {doc doc2 : Transcript} {msgId : JsString}
    (h : reply toNum ok data now doc = .ok (msgId, doc2)) :
    ∃ body panel,
      doc2 = doc ++ [⟨messageId now, messageHead false ++ body ++ messageTail panel⟩] := by
  unfold reply at h
  simp only [bind, Except.bind] at h
  split at h
  · split at h
    · exact absurd h (by simp)
    · split at h
      · exact absurd h (by simp)
      · exact (addMessage_shape h).2
  · split at h
    · exact absurd h (by simp)
    · exact (addMessage_shape h).2

theorem catchBlock_eq (toNum : JsString → JsNumber) (msgId : JsString) (now : Nat)
    (doc : Transcript) :
    catchBlock toNum msgId now doc =
      removeMessage msgId doc ++ [⟨messageId now, assistantHtml connectError⟩] := by
  simp [catchBlock, addMessage_assistant]

/-- One request handled on a transcript that ends with its placeholder: the
placeholder goes and one message of the assistant comes. -/
theorem handleOutcome_turn (toNum : JsString → JsNumber) (msgId : JsString) (o : Outcome)
    (now1 now2 : Nat) (base : Transcript) (html : JsString)
    (hne : msgId ≠ []) (hids : ∀ m ∈ base, m.id ≠ msgId) :
    ∃ a, handleOutcome toNum msgId o now1 now2 (base ++ [⟨msgId, html⟩]) = base ++ [a] ∧
      (a.id = messageId now1 ∨ a.id = messageId now2) ∧
      ∃ body panel, a.html = messageHead false ++ body ++ messageTail panel := by
  have hbase : ∀ m ∈ base, hasId m msgId = false := fun m hm => hasId_of_ne (hids m hm)
  have hrem : removeMessage msgId (base ++ [⟨msgId, html⟩]) = base := by
    simpa using removeMessage_append_hit base ⟨msgId, html⟩ [] hbase (hasId_self hne)
  cases o with
  | fetchRejects =>
    refine ⟨⟨messageId now2, assistantHtml connectError⟩, ?_, Or.inr rfl, connectError, [], rfl⟩
    simp [handleOutcome, tryBlock, catchBlock_eq, hrem]
  | jsonRejects ok =>
    refine ⟨⟨messageId now2, assistantHtml connectError⟩, ?_, Or.inr rfl, connectError, [], rfl⟩
    simp [handleOutcome, tryBlock, catchBlock_eq, hrem]
  | json ok data =>
    cases hr : reply toNum ok data now1 base with
    | error e =>
      refine ⟨⟨messageId now2, assistantHtml connectError⟩, ?_, Or.inr rfl,
        connectError, [], rfl⟩
      simp [handleOutcome, tryBlock, catchBlock_eq, hrem, hr, removeMessage_absent hbase]
    | ok r =>
      obtain ⟨rid, doc2⟩ := r
      obtain ⟨body, panel, hdoc⟩ := reply_shape hr
      refine ⟨⟨messageId now1, messageHead false ++ body ++ messageTail panel⟩, ?_,
        Or.inl rfl, body, panel, rfl⟩
      simp [handleOutcome, tryBlock, hrem, hr, hdoc]

theorem sendQuery_rejected (toNum : JsString → JsNumber) (now1 now2 : Nat) (s : State)
    (h : jsTrim s.inputValue = [] ∨ s.isProcessing = true) :
    sendQuery toNum now1 now2 s = s := by
  rcases h with h | h <;> simp [sendQuery, h]

theorem sendQuery_accepted (toNum : JsString → JsNumber) (now1 now2 : Nat) (s : State)
    (hq : jsTrim s.inputValue ≠ []) (hp : s.isProcessing = false) :
    sendQuery toNum now1 now2 s =
      { s with
        isProcessing := true
        sendDisabled := true
        welcomeDisplay := s.welcomeDisplay.map (fun _ => utf16 "none")
        inputValue := []
        inputHeight := utf16 "auto"
        transcript := s.transcript ++
          [⟨messageId now1, userHtml (jsTrim s.inputValue)⟩, ⟨loadingId now2, loadingHtml⟩]
        inFlight := s.inFlight ++
          [⟨loadingId now2, buildPayload (jsTrim s.inputValue) s.storedKey⟩] } := by
  have hq2 : (jsTrim s.inputValue).isEmpty = false := by
    cases hj : jsTrim s.inputValue with
    | nil => exact absurd hj hq
    | cons a b => rfl
  simp [sendQuery, hq2, hp, addMessage_user, addLoadingMessage, loadingId]

theorem complete_flags (toNum : JsString → JsNumber) (i : Nat) (o : Outcome) (now1 now2 : Nat)
    (s : State) (hi : i < s.inFlight.length) :
    (complete toNum i o now1 now2 s).isProcessing = false ∧
      (complete toNum i o now1 now2 s).sendDisabled = false := by
  simp [complete, List.getElem?_eq_getElem hi]

theorem complete_last (toNum : JsString → JsNumber) (o : Outcome) (now1 now2 : Nat)
    (s : State) (r : Request) :
    complete toNum s.inFlight.length o now1 now2 { s with inFlight := s.inFlight ++ [r] } =
      { s with
        transcript := handleOutcome toNum r.loadingId o now1 now2 s.transcript
        isProcessing := false
        sendDisabled := false
        inputFocused := true } := by
  simp [complete, List.eraseIdx_append_of_length_le]

/-! ## Escaping and the rendering of a source -/

theorem escapeHtml_cons (u : CodeUnit) (text : JsString) :
    escapeHtml (u :: text) = escapeUnit u ++ escapeHtml text := rfl

theorem markupFree_escapeUnit_append (u : CodeUnit) (rest : JsString)
    (h : markupFree rest = true) : markupFree (escapeUnit u ++ rest) = true := by
  unfold escapeUnit
  split
  · have e : utf16 "&amp;" = [38, 97, 109, 112, 59] := rfl
    simp [e, markupFree, entityFollows, List.isPrefixOf, h]
  · split
    · have e : utf16 "&lt;" = [38, 108, 116, 59] := rfl
      simp [e, markupFree, entityFollows, List.isPrefixOf, h]
    · split
      · have e : utf16 "&gt;" = [38, 103, 116, 59] := rfl
        simp [e, markupFree, entityFollows, List.isPrefixOf, h]
      · split
        · have e : utf16 "&nbsp;" = [38, 110, 98, 115, 112, 59] := rfl
          simp [e, markupFree, entityFollows, List.isPrefixOf, h]
        · rename_i h38 h60 h62 _
          simp [markupFree, h, h38, h60, h62]

theorem markupFree_escapeHtml_append (text rest : JsString) (h : markupFree rest = true) :
    markupFree (escapeHtml text ++ rest) = true := by
  induction text with
  | nil => simpa [escapeHtml] using h
  | cons u more ih =>
    rw [escapeHtml_cons, List.append_assoc]
    exact markupFree_escapeUnit_append u _ ih

theorem markupFree_escapeHtml (text : JsString) : markupFree (escapeHtml text) = true := by
  simpa using markupFree_escapeHtml_append text [] rfl

theorem markupFree_sourceText (text : JsString) : markupFree (sourceText text) = true := by
  unfold sourceText
  apply markupFree_escapeHtml_append
  split <;> rfl

theorem markupFree_no_bracket {text : JsString} (h : markupFree text = true) :
    ∀ u ∈ text, u ≠ 60 ∧ u ≠ 62 := by
  induction text with
  | nil => intro u hu; cases hu
  | cons v rest ih =>
    simp only [markupFree, Bool.and_eq_true, bne_iff_ne, ne_eq] at h
    intro u hu
    rcases List.mem_cons.mp hu with hv | hr
    · rw [hv]; exact ⟨h.1.1.1, h.1.1.2⟩
    · exact ih h.2 u hr

/-! ## The error notice and the sources panel -/

theorem sourceItem_typed (toNum : JsString → JsNumber) (fields : List (JsString × JsVal))
    (source text : JsString) (page similarity : JsNumber)
    (hsource : lookupKey (utf16 "source") fields = .str source)
    (hpage : lookupKey (utf16 "page") fields = .num page)
    (hsim : lookupKey (utf16 "similarity") fields = .num similarity)
    (htext : lookupKey (utf16 "text") fields = .str text) :
    sourceItem toNum (.obj fields) =
      .ok (sourceHead source page.text similarity.percent ++ sourceText text ++ sourceTail) := by
  simp [sourceItem, getProp, hsource, hpage, hsim, htext, toStr, toNumber, bind, Except.bind,
    pure, Except.pure]

theorem sourceItem_shape {toNum : JsString → JsNumber} {s : JsVal} {html : JsString}
    (h : sourceItem toNum s = .ok html) :
    ∃ source page percent text,
      getProp s (utf16 "text") = .ok (.str text) ∧
      html = sourceHead source page percent ++ sourceText text ++ sourceTail := by
  unfold sourceItem at h
  simp only [bind, Except.bind, pure, Except.pure] at h
  repeat' split at h
  all_goals try contradiction
  simp only [Except.ok.injEq] at h
  refine ⟨_, _, _, _, ?_, h.symm⟩
  assumption

theorem errorContent_text {data : JsVal} {text : JsString}
    (h : getProp data (utf16 "error") = .ok (.str text)) (hne : text ≠ []) :
    errorContent data = .ok (errorNotice text) := by
  have ht : truthy (.str text) = true := by
    cases text with
    | nil => exact absurd rfl hne
    | cons a b => rfl
  simp [errorContent, h, ht, toStr, bind, Except.bind, pure, Except.pure]

theorem errorContent_generic {data err : JsVal}
    (h : getProp data (utf16 "error") = .ok err) (hf : truthy err = false) :
    errorContent data = .ok (errorNotice genericError) := by
  simp [errorContent, h, hf, bind, Except.bind, pure, Except.pure]

theorem handleOutcome_notice (toNum : JsString → JsNumber) (msgId : JsString) (data : JsVal)
    (content : JsString) (now1 now2 : Nat) (doc : Transcript)
    (h : errorContent data = .ok content) :
    handleOutcome toNum msgId (.json false data) now1 now2 doc =
      removeMessage msgId doc ++ [⟨messageId now1, assistantHtml content⟩] := by
  simp [handleOutcome, tryBlock, reply, h, addMessage_assistant, bind, Except.bind]

theorem turn_handled (toNum : JsString → JsNumber) (now1 now2 : Nat) (s : State)
    (o : Outcome) (m1 m2 : Nat)
    (hq : jsTrim s.inputValue ≠ []) (hp : s.isProcessing = false) :
    (complete toNum s.inFlight.length o m1 m2 (sendQuery toNum now1 now2 s)).transcript =
      handleOutcome toNum (loadingId now2) o m1 m2
        (s.transcript ++
          [⟨messageId now1, userHtml (jsTrim s.inputValue)⟩, ⟨loadingId now2, loadingHtml⟩]) := by
  rw [sendQuery_accepted toNum now1 now2 s hq hp]
  have hc := complete_last toNum o m1 m2
    { s with
      isProcessing := true
      sendDisabled := true
      welcomeDisplay := s.welcomeDisplay.map (fun _ => utf16 "none")
      inputValue := []
      inputHeight := utf16 "auto"
      transcript := s.transcript ++
        [⟨messageId now1, userHtml (jsTrim s.inputValue)⟩, ⟨loadingId now2, loadingHtml⟩] }
    ⟨loadingId now2, buildPayload (jsTrim s.inputValue) s.storedKey⟩
  simp only at hc
  rw [hc]

theorem infix_assistantHtml_errorNotice (text : JsString) :
    text <:+: assistantHtml (errorNotice text) :=
  ⟨messageHead false ++ utf16 "<p style=\"color: #f87171;\">❌ ",
    utf16 "</p>" ++ messageTail [], by simp [assistantHtml, errorNotice]⟩

theorem unescapeHtml_escapeUnit_append (u : CodeUnit) (rest : JsString) :
    unescapeHtml (escapeUnit u ++ rest) = u :: unescapeHtml rest := by
  unfold escapeUnit
  split
  · rename_i h
    have e : utf16 "&amp;" = [38, 97, 109, 112, 59] := rfl
    simp [e, h, unescapeHtml]
  · split
    · rename_i h
      have e : utf16 "&lt;" = [38, 108, 116, 59] := rfl
      simp [e, h, unescapeHtml]
    · split
      · rename_i h
        have e : utf16 "&gt;" = [38, 103, 116, 59] := rfl
        simp [e, h, unescapeHtml]
      · split
        · rename_i h
          have e : utf16 "&nbsp;" = [38, 110, 98, 115, 112, 59] := rfl
          simp [e, h, unescapeHtml]
        · rename_i h38 _ _ _
          simp only [List.singleton_append]
          rw [unescapeHtml]
          all_goals simp_all

theorem unescapeHtml_escapeHtml (text : JsString) : unescapeHtml (escapeHtml text) = text := by
  induction text with
  | nil => rfl
  | cons u rest ih =>
    rw [escapeHtml_cons, unescapeHtml_escapeUnit_append, ih]

theorem joinWith_nil (items : List JsString) : joinWith [] items = items.flatten := by
  induction items with
  | nil => rfl
  | cons a rest ih =>
    cases rest with
    | nil => simp [joinWith]
    | cons b more => simp [joinWith, ih]

theorem sourceText_eq (src : Source) : sourceText src.text = src.shownText := rfl

theorem sourceItem_readsAs (toNum : JsString → JsNumber) {v : JsVal} {src : Source}
    (h : readsAs v src) : sourceItem toNum v = .ok src.markup := by
  cases v with
  | obj fields =>
    obtain ⟨h1, h2, h3, h4⟩ := h
    exact sourceItem_typed toNum fields src.source src.text src.page src.similarity h1 h2 h3 h4
  | _ => exact absurd h (by simp [readsAs])

theorem sourceItems_readsAs (toNum : JsString → JsNumber) {items : List JsVal}
    {srcs : List Source} (h : List.Forall₂ readsAs items srcs) :
    sourceItems toNum items = .ok (srcs.map Source.markup) := by
  induction h with
  | nil => rfl
  | cons hd _ ih =>
    simp [sourceItems, sourceItem_readsAs toNum hd, ih, bind, Except.bind, pure, Except.pure]

theorem sourcesHtml_readsAs (toNum : JsString → JsNumber) {items : List JsVal}
    {srcs : List Source} (h : List.Forall₂ readsAs items srcs) :
    sourcesHtml toNum (.arr items) = .ok (expectedPanel srcs) := by
  have hlen : items.length = srcs.length := h.length_eq
  cases h with
  | nil => rfl
  | cons hd tl =>
    have hall := sourceItems_readsAs toNum (List.Forall₂.cons hd tl)
    simp only [sourcesHtml, truthy, lengthPositive, bind, Except.bind, pure, Except.pure,
      if_true, List.isEmpty_cons, Bool.not_false, hall, joinWith_nil, expectedPanel, hlen]
    rfl

theorem addMessage_sources (toNum : JsString → JsNumber) (now : Nat) (answer : JsString)
    {items : List JsVal} {srcs : List Source} (doc : Transcript)
    (h : List.Forall₂ readsAs items srcs) :
    addMessage toNum now (utf16 "assistant") (.str answer) (.arr items) doc =
      .ok (messageId now, doc ++ [⟨messageId now,
        messageHead false ++ answer ++ messageTail (expectedPanel srcs)⟩]) := by
  have hrole : (utf16 "assistant" == utf16 "user") = false := rfl
  simp [addMessage, sourcesHtml_readsAs toNum h, hrole, messageContent, toStr, bind,
    Except.bind, pure, Except.pure, messageId]

theorem shown_infix_markup (src : Source) :
    utf16 "<div class=\"source-text\">" ++ src.shownText ++ utf16 "</div>" <:+: src.markup := by
  have hW : utf16 "% match</span>\n                </div>\n                <div class=\"source-text\">"
      = utf16 "% match</span>\n                </div>\n                "
        ++ utf16 "<div class=\"source-text\">" := rfl
  have hT : sourceTail = utf16 "</div>" ++ utf16 "\n            </div>\n        " := rfl
  refine ⟨utf16 "\n            <div class=\"source-item\">\n                <div class=\"source-meta\">\n                    <span class=\"source-file\">📄 "
    ++ src.source ++ utf16 " — Page " ++ src.page.text
    ++ utf16 "</span>\n                    <span class=\"source-similarity\">"
    ++ src.similarity.percent ++ utf16 "% match</span>\n                </div>\n                ",
    utf16 "\n            </div>\n        ", ?_⟩
  rw [Source.markup, sourceHead, hW, hT]
  simp only [List.append_assoc]

theorem markup_infix_panel {srcs : List Source} {src : Source} (h : src ∈ srcs) :
    src.markup <:+: expectedPanel srcs := by
  have hne : srcs.isEmpty = false := by
    cases srcs with
    | nil => cases h
    | cons a b => rfl
  have hflat : src.markup <:+: (srcs.map Source.markup).flatten :=
    List.infix_of_mem_flatten (List.mem_map_of_mem _ h)
  obtain ⟨a, b, hab⟩ := hflat
  refine ⟨utf16 "\n            <div class=\"sources-panel\">\n                <button class=\"sources-toggle\" onclick=\"toggleSources(this)\">\n                    <span>📚 "
    ++ decimal srcs.length
    ++ utf16 " Sources Retrieved from Endee</span>\n                    <svg width=\"16\" height=\"16\" viewBox=\"0 0 24 24\" fill=\"none\" stroke=\"currentColor\" stroke-width=\"2\"><polyline points=\"6 9 12 15 18 9\"></polyline></svg>\n                </button>\n                <div class=\"sources-list\">"
    ++ a, b ++ utf16 "</div>\n            </div>\n        ", ?_⟩
  simp only [expectedPanel, hne, sourcesPanel, ← hab, List.append_assoc]
  rfl

theorem panel_infix_html (isUser : Bool) (body panel : JsString) :
    panel <:+: messageHead isUser ++ body ++ messageTail panel :=
  ⟨messageHead isUser ++ body ++ utf16 "</div>\n            ", utf16 "\n        </div>\n    ",
    by simp [messageTail]⟩

theorem shown_infix_html {srcs : List Source} {src : Source} (h : src ∈ srcs)
    (isUser : Bool) (body : JsString) :
    utf16 "<div class=\"source-text\">" ++ src.shownText ++ utf16 "</div>" <:+:
      messageHead isUser ++ body ++ messageTail (expectedPanel srcs) :=
  ((shown_infix_markup src).trans (markup_infix_panel h)).trans (panel_infix_html _ _ _)

set_option maxRecDepth 100000 in
theorem escaped_infix_userHtml (text : JsString) :
    utf16 "<div class=\"message-content\"><p>" ++ escapeHtml text ++ utf16 "</p></div>" <:+:
      userHtml text := by
  have hH : messageHead true =
      utf16 "\n        <div class=\"message-header\">\n            <div class=\"message-avatar user\">\n                You\n            </div>\n            <span class=\"message-sender\">You</span>\n        </div>\n        <div class=\"message-body\">\n            "
        ++ utf16 "<div class=\"message-content\">" := rfl
  have hT : messageTail [] = utf16 "</div>" ++ utf16 "\n            \n        </div>\n    " := rfl
  have h1 : utf16 "<div class=\"message-content\"><p>" =
      utf16 "<div class=\"message-content\">" ++ utf16 "<p>" := rfl
  have h2 : utf16 "</p></div>" = utf16 "</p>" ++ utf16 "</div>" := rfl
  refine ⟨utf16 "\n        <div class=\"message-header\">\n            <div class=\"message-avatar user\">\n                You\n            </div>\n            <span class=\"message-sender\">You</span>\n        </div>\n        <div class=\"message-body\">\n            ",
    utf16 "\n            \n        </div>\n    ", ?_⟩
  rw [userHtml, hH, hT, h1, h2]
  simp only [List.append_assoc]

theorem sourcesHtml_arr (toNum : JsString → JsNumber) (items : List JsVal) :
    sourcesHtml toNum (.arr items) =
      if items.isEmpty then .ok []
      else (sourceItems toNum items).map
        (fun rendered => sourcesPanel (decimal items.length) rendered.flatten) := by
  cases items with
  | nil => rfl
  | cons a rest =>
    cases hr : sourceItems toNum (a :: rest) with
    | error e =>
      simp [sourcesHtml, truthy, lengthPositive, hr, bind, Except.bind, pure, Except.pure,
        Except.map]
    | ok rendered =>
      simp [sourcesHtml, truthy, lengthPositive, hr, bind, Except.bind, pure, Except.pure,
        Except.map, joinWith_nil]

theorem sourceItems_shape {toNum : JsString → JsNumber} {items : List JsVal}
    {rendered : List JsString} (h : sourceItems toNum items = .ok rendered) :
    List.Forall₂ (fun s item => ∃ head text, getProp s (utf16 "text") = .ok (.str text) ∧
      item = head ++ (escapeHtml (text.take 200) ++
        (if 200 < text.length then utf16 "..." else [])) ++ sourceTail) items rendered := by
  induction items generalizing rendered with
  | nil =>
    simp only [sourceItems, pure, Except.pure, Except.ok.injEq] at h
    rw [← h]
    exact List.Forall₂.nil
  | cons s rest ih =>
    simp only [sourceItems, bind, Except.bind, pure, Except.pure] at h
    split at h
    · exact absurd h (by simp)
    · rename_i item hitem
      split at h
      · exact absurd h (by simp)
      · rename_i more hmore
        simp only [Except.ok.injEq] at h
        rw [← h]
        obtain ⟨a, b, c, t, ht, hi⟩ := sourceItem_shape hitem
        exact List.Forall₂.cons ⟨sourceHead a b c, t, ht, hi⟩ (ih hmore)

theorem addMessage_arr_shape {toNum : JsString → JsNumber} {now : Nat} {role : JsString}
    {content : JsVal} {items : List JsVal} {doc doc2 : Transcript} {msgId : JsString}
    (h : addMessage toNum now role content (.arr items) doc = .ok (msgId, doc2)) :
    ∃ body rendered, sourceItems toNum items = .ok rendered ∧
      doc2 = doc ++ [⟨messageId now, messageHead (role == utf16 "user") ++ body ++
        messageTail (if items.isEmpty then []
          else sourcesPanel (decimal items.length) rendered.flatten)⟩] := by
  unfold addMessage at h
  simp only [bind, Except.bind, pure, Except.pure, sourcesHtml_arr] at h
  cases items with
  | nil =>
    simp only [List.isEmpty_nil, if_true] at h
    split at h
    · exact absurd h (by simp)
    · simp only [Except.ok.injEq, Prod.mk.injEq] at h
      exact ⟨_, [], rfl, by rw [← h.2]; rfl⟩
  | cons a rest =>
    cases hr : sourceItems toNum (a :: rest) with
    | error e =>
      simp [hr, Except.map] at h
    | ok rendered =>
      simp only [hr, Except.map, List.isEmpty_cons, Bool.false_eq_true, if_false] at h
      split at h
      · exact absurd h (by simp)
      · simp only [Except.ok.injEq, Prod.mk.injEq] at h
        exact ⟨_, rendered, rfl, by rw [← h.2]; rfl⟩

theorem unescapeHtml_escapeHtml_append (text rest : JsString) :
    unescapeHtml (escapeHtml text ++ rest) = text ++ unescapeHtml rest := by
  induction text with
  | nil => rfl
  | cons u more ih =>
    rw [escapeHtml_cons, List.append_assoc, unescapeHtml_escapeUnit_append, ih]
    rfl

theorem markupFree_shown (text : JsString) :
    markupFree (escapeHtml (text.take 200) ++
      (if 200 < text.length then utf16 "..." else [])) = true :=
  markupFree_sourceText text

/-! ## A turn that no completion and no new chat interrupts -/

theorem complete_at (toNum : JsString → JsNumber) (o : Outcome) (now1 now2 : Nat)
    (t : State) (before : List Request) (r : Request) (h : t.inFlight = before ++ [r]) :
    (complete toNum before.length o now1 now2 t).transcript =
      handleOutcome toNum r.loadingId o now1 now2 t.transcript := by
  simp [complete, h]

theorem step_quiet (toNum : JsString → JsNumber) (t : State) (e : Event)
    (he : e.isQuiet = true) (hp : t.isProcessing = true) :
    (step toNum t e).transcript = t.transcript ∧ (step toNum t e).inFlight = t.inFlight ∧
      (step toNum t e).isProcessing = true := by
  cases e with
  | typeText text => exact ⟨rfl, rfl, hp⟩
  | submit now1 now2 =>
    simp only [step]
    rw [sendQuery_rejected toNum now1 now2 t (Or.inr hp)]
    exact ⟨rfl, rfl, hp⟩
  | ask question now1 now2 =>
    have hr := sendQuery_rejected toNum now1 now2
      { t with inputValue := normalizeNewlines question } (Or.inr hp)
    simp only [step, askQuestion]
    rw [hr]
    exact ⟨rfl, rfl, hp⟩
  | completion i o now1 now2 => exact absurd he (by simp [Event.isQuiet])
  | newChat => exact absurd he (by simp [Event.isQuiet])
  | save value => exact ⟨rfl, rfl, hp⟩

theorem run_quiet (toNum : JsString → JsNumber) (t : State) (events : List Event)
    (hq : ∀ e ∈ events, e.isQuiet = true) (hp : t.isProcessing = true) :
    (run toNum t events).transcript = t.transcript ∧
      (run toNum t events).inFlight = t.inFlight := by
  induction events generalizing t with
  | nil => exact ⟨rfl, rfl⟩
  | cons e rest ih =>
    have he := step_quiet toNum t e (hq e (List.mem_cons_self _ _)) hp
    have hrest := ih (step toNum t e) (fun x hx => hq x (List.mem_cons_of_mem _ hx)) he.2.2
    exact ⟨hrest.1.trans he.1, hrest.2.trans he.2.1⟩

/-- A turn that nothing but edits, refused submissions and saved settings
interrupts, started on a transcript without loading placeholder: for every
outcome of the network call, the transcript after the turn is the transcript
before it followed by the user message and one message of the assistant, and
holds no loading placeholder. -/
theorem uninterrupted_turn (toNum : JsString → JsNumber) (now1 now2 : Nat) (s : State)
    (o : Outcome) (m1 m2 : Nat) (between : List Event)
    (hq : jsTrim s.inputValue ≠ []) (hp : s.isProcessing = false)
    (hfresh : ∀ m ∈ s.transcript, isLoading m = false)
    (hquiet : ∀ e ∈ between, e.isQuiet = true) :
    (sendQuery toNum now1 now2 s).transcript =
        s.transcript ++
          [⟨messageId now1, userHtml (jsTrim s.inputValue)⟩, ⟨loadingId now2, loadingHtml⟩] ∧
      ∃ a : Message,
        (complete toNum s.inFlight.length o m1 m2
          (run toNum (sendQuery toNum now1 now2 s) between)).transcript =
          s.transcript ++ [⟨messageId now1, userHtml (jsTrim s.inputValue)⟩, a] ∧
        (a.id = messageId m1 ∨ a.id = messageId m2) ∧
        (∃ body panel, a.html = messageHead false ++ body ++ messageTail panel) ∧
        ∀ m ∈ (complete toNum s.inFlight.length o m1 m2
            (run toNum (sendQuery toNum now1 now2 s) between)).transcript,
          isLoading m = false := by
  have hbase : ∀ m ∈ s.transcript ++ [⟨messageId now1, userHtml (jsTrim s.inputValue)⟩],
      m.id ≠ loadingId now2 := by
    intro m hm hid
    have hl : isLoading m = true := by
      cases m with
      | mk mid mhtml =>
        simp only at hid
        rw [hid]
        exact isLoading_loadingId now2 mhtml
    rcases List.mem_append.mp hm with h | h
    · rw [hfresh m h] at hl
      exact Bool.noConfusion hl
    · rw [List.mem_singleton.mp h, isLoading_messageId] at hl
      exact Bool.noConfusion hl
  have hne : loadingId now2 ≠ [] := by simp [loadingId, utf16, utf16Char]
  obtain ⟨a, ha, hid, hshape⟩ :=
    handleOutcome_turn toNum (loadingId now2) o m1 m2 _ loadingHtml hne hbase
  have hsend := sendQuery_accepted toNum now1 now2 s hq hp
  have hsp : (sendQuery toNum now1 now2 s).isProcessing = true := by rw [hsend]
  have hst : (sendQuery toNum now1 now2 s).transcript = s.transcript ++
      [⟨messageId now1, userHtml (jsTrim s.inputValue)⟩, ⟨loadingId now2, loadingHtml⟩] := by
    rw [hsend]
  have hsf : (sendQuery toNum now1 now2 s).inFlight = s.inFlight ++
      [⟨loadingId now2, buildPayload (jsTrim s.inputValue) s.storedKey⟩] := by
    rw [hsend]
  obtain ⟨hrt, hrf⟩ := run_quiet toNum (sendQuery toNum now1 now2 s) between hquiet hsp
  have hdone : (complete toNum s.inFlight.length o m1 m2
      (run toNum (sendQuery toNum now1 now2 s) between)).transcript =
        s.transcript ++ [⟨messageId now1, userHtml (jsTrim s.inputValue)⟩, a] := by
    rw [complete_at toNum o m1 m2 _ s.inFlight
      ⟨loadingId now2, buildPayload (jsTrim s.inputValue) s.storedKey⟩ (hrf.trans hsf),
      hrt, hst]
    have hsplit : s.transcript ++
        [⟨messageId now1, userHtml (jsTrim s.inputValue)⟩, ⟨loadingId now2, loadingHtml⟩] =
        (s.transcript ++ [⟨messageId now1, userHtml (jsTrim s.inputValue)⟩]) ++
          [⟨loadingId now2, loadingHtml⟩] := by simp
    rw [hsplit, ha]
    simp
  refine ⟨hst, a, hdone, hid, hshape, ?_⟩
  rw [hdone]
  intro m hm
  rcases List.mem_append.mp hm with h | h
  · exact hfresh m h
  · simp only [List.mem_cons, List.mem_singleton, List.not_mem_nil, or_false] at h
    rcases h with h | h
    · rw [h]; rfl
    · rw [h]
      cases a with
      | mk aid ahtml =>
        simp only at hid
        rcases hid with hid | hid <;> rw [hid] <;> rfl

/-- A first question, an edit and a refused second submission while it is
outstanding, then an error status with a `null` body. -/
theorem uninterrupted_turn_witness :
    ∃ a : Message,
      (complete noNumber 0 (.json false .null) 2 3
        (run noNumber
          (sendQuery noNumber 1 1 { State.initial none with inputValue := utf16 "hi" })
          [.typeText (utf16 "more"), .submit 2 2])).transcript =
        [⟨messageId 1, userHtml (utf16 "hi")⟩, a] ∧
      (a.id = messageId 2 ∨ a.id = messageId 3) :=
  have h := (uninterrupted_turn noNumber 1 1
    { State.initial none with inputValue := utf16 "hi" } (.json false .null) 2 3
    [.typeText (utf16 "more"), .submit 2 2] (by decide) rfl (by decide) (by decide)).2
  h.elim fun a ha => ⟨a, ha.1, ha.2.1⟩

/-! ## The stored key -/

theorem sendQuery_storedKey (toNum : JsString → JsNumber) (now1 now2 : Nat) (s : State) :
    (sendQuery toNum now1 now2 s).storedKey = s.storedKey := by
  by_cases hq : jsTrim s.inputValue = []
  · rw [sendQuery_rejected toNum now1 now2 s (Or.inl hq)]
  · cases hp : s.isProcessing with
    | true => rw [sendQuery_rejected toNum now1 now2 s (Or.inr hp)]
    | false => rw [sendQuery_accepted toNum now1 now2 s hq hp]

theorem storedKey_step (toNum : JsString → JsNumber) (s : State) (e : Event)
    (h : s.storedKey ≠ some []) : (step toNum s e).storedKey ≠ some [] := by
  cases e with
  | typeText text => exact h
  | submit now1 now2 => simpa [step, sendQuery_storedKey] using h
  | ask question now1 now2 => simpa [step, askQuestion, sendQuery_storedKey] using h
  | completion i o now1 now2 =>
    simp only [step, complete]
    split
    · exact h
    · exact h
  | newChat => exact h
  | save value =>
    simp only [step, saveSettings]
    cases hv : jsTrim value with
    | nil => simp
    | cons a b => simp

theorem storedKey_run (toNum : JsString → JsNumber) (s : State) (events : List Event)
    (h : s.storedKey ≠ some []) : (run toNum s events).storedKey ≠ some [] := by
  induction events generalizing s with
  | nil => exact h
  | cons e rest ih => exact ih (step toNum s e) (storedKey_step toNum s e h)

/-! ## The gate when no new chat is started -/

theorem gated_sendQuery (toNum : JsString → JsNumber) (now1 now2 : Nat) (s : State)
    (h : gated s) : gated (sendQuery toNum now1 now2 s) := by
  by_cases hq : jsTrim s.inputValue = []
  · rw [sendQuery_rejected toNum now1 now2 s (Or.inl hq)]; exact h
  · cases hp : s.isProcessing with
    | true => rw [sendQuery_rejected toNum now1 now2 s (Or.inr hp)]; exact h
    | false =>
      rw [sendQuery_accepted toNum now1 now2 s hq hp]
      simp [gated, h.2 hp]

theorem gated_complete (toNum : JsString → JsNumber) (i : Nat) (o : Outcome) (now1 now2 : Nat)
    (s : State) (h : gated s) : gated (complete toNum i o now1 now2 s) := by
  unfold complete
  cases hr : s.inFlight[i]? with
  | none => exact h
  | some r =>
    have hi : i < s.inFlight.length := by
      by_contra hge
      rw [List.getElem?_eq_none (by omega)] at hr
      exact Option.noConfusion hr
    have hlen : (s.inFlight.eraseIdx i).length = 0 := by
      rw [List.length_eraseIdx, if_pos hi]
      have := h.1
      omega
    simp only [gated]
    exact ⟨by omega, fun _ => List.eq_nil_of_length_eq_zero hlen⟩

theorem gated_step (toNum : JsString → JsNumber) (s : State) (e : Event)
    (he : e.isNewChat = false) (h : gated s) : gated (step toNum s e) := by
  cases e with
  | typeText text => exact h
  | submit now1 now2 => exact gated_sendQuery toNum now1 now2 s h
  | ask question now1 now2 => exact gated_sendQuery toNum now1 now2 _ h
  | completion i o now1 now2 => exact gated_complete toNum i o now1 now2 s h
  | newChat => exact absurd he (by decide)
  | save value => exact h

/-- The gate holds when no new chat is started: from a state that obeys the
discipline, any sequence of edits, submissions, completions and saved
settings leaves at most one request in flight. -/
theorem gated_run (toNum : JsString → JsNumber) (s : State) (events : List Event)
    (hno : ∀ e ∈ events, e.isNewChat = false) (h : gated s) :
    (run toNum s events).inFlight.length ≤ 1 := by
  have key : gated (run toNum s events) := by
    induction events generalizing s with
    | nil => exact h
    | cons e rest ih =>
      have he := hno e (List.mem_cons_self _ _)
      have hrest : ∀ x ∈ rest, x.isNewChat = false :=
        fun x hx => hno x (List.mem_cons_of_mem _ hx)
      exact ih (step toNum s e) hrest (gated_step toNum s e he h)
  exact key.1

/-- Two submissions in a row from the loaded page: the second is refused. -/
theorem gated_run_witness :
    (run noNumber (State.initial none)
      [.ask (utf16 "a") 1 1, .ask (utf16 "b") 2 2]).inFlight.length ≤ 1 :=
  gated_run noNumber (State.initial none) [.ask (utf16 "a") 1 1, .ask (utf16 "b") 2 2]
    (by decide) ⟨by decide, fun _ => rfl⟩

/-! ## The stored key and the health check -/

/-- The settings handler never stores an empty key, and a query accepted
after the settings were saved carries the stored key, if any, as `api_key`. -/
theorem saved_key_sent (toNum : JsString → JsNumber) (value : JsString) (now1 now2 : Nat)
    (s : State) (hq : jsTrim s.inputValue ≠ []) (hp : s.isProcessing = false) :
    (saveSettings value s).storedKey ≠ some [] ∧
      ((saveSettings value s).storedKey = none ↔ jsTrim value = []) ∧
      (sendQuery toNum now1 now2 (saveSettings value s)).inFlight =
        s.inFlight ++ [⟨loadingId now2,
          ⟨jsTrim s.inputValue, (saveSettings value s).storedKey⟩⟩] := by
  have hsend := sendQuery_accepted toNum now1 now2 (saveSettings value s) hq hp
  cases hv : jsTrim value with
  | nil =>
    rw [hsend]
    simp [saveSettings, hv, buildPayload]
  | cons a b =>
    rw [hsend]
    simp [saveSettings, hv, buildPayload]

/-- A key typed with blanks around it is stored trimmed and sent. -/
theorem saved_key_sent_witness :
    (sendQuery noNumber 1 1
        (saveSettings (utf16 " gsk_1 ")
          { State.initial none with inputValue := utf16 "hi" })).inFlight =
      [⟨loadingId 1, ⟨utf16 "hi", some (utf16 "gsk_1")⟩⟩] :=
  (saved_key_sent noNumber (utf16 " gsk_1 ") 1 1
    { State.initial none with inputValue := utf16 "hi" } (by decide) rfl).2.2

/-- The health check marks the backend disconnected when no response arrives,
when the body does not parse and when it parses to `null`; on any other body
it marks it connected exactly when `endee_connected` is truthy, whatever the
status of the response. -/
theorem checkHealth_cases (h : Health) (ok : Bool) (data flag : JsVal) :
    (checkHealth .fetchRejects h).endee.disconnected = true ∧
      (checkHealth (.jsonRejects ok) h).endee.disconnected = true ∧
      (checkHealth (.json ok .null) h).endee.disconnected = true ∧
      (getProp data (utf16 "endee_connected") = .ok flag →
        (checkHealth (.json ok data) h).endee = ⟨truthy flag, !truthy flag⟩) := by
  refine ⟨rfl, rfl, rfl, ?_⟩
  intro hflag
  cases ht : truthy flag <;> simp [checkHealth, hflag, ht]

/-- A healthy answer and an unhealthy one. -/
theorem checkHealth_cases_witness :
    (checkHealth (.json true (.obj [(utf16 "endee_connected", .bool true)]))
        ⟨⟨false, false⟩, ⟨false, false⟩⟩).endee = ⟨true, false⟩ ∧
      (checkHealth (.json true (.obj [(utf16 "endee_connected", .bool false)]))
        ⟨⟨false, false⟩, ⟨false, false⟩⟩).endee = ⟨false, true⟩ :=
  ⟨(checkHealth_cases ⟨⟨false, false⟩, ⟨false, false⟩⟩ true
      (.obj [(utf16 "endee_connected", .bool true)]) (.bool true)).2.2.2 rfl,
    (checkHealth_cases ⟨⟨false, false⟩, ⟨false, false⟩⟩ true
      (.obj [(utf16 "endee_connected", .bool false)]) (.bool false)).2.2.2 rfl⟩

/-! ## The claims -/

/-- C1 (the code departs from it): a new chat started while a query is
outstanding clears `isProcessing` without ending the query, so the next
submission is sent as well and two queries are outstanding at once; when the
first of them completes, the gate opens while the second is still
outstanding. -/
theorem newChat_reopens_gate :
    (run noNumber (State.initial none)
        [.typeText (utf16 "a"), .submit 1 1, .newChat,
         .typeText (utf16 "b"), .submit 2 2]).inFlight.length = 2 ∧
      (run noNumber (State.initial none)
        [.typeText (utf16 "a"), .submit 1 1, .newChat,
         .typeText (utf16 "b"), .submit 2 2,
         .completion 0 .fetchRejects 3 3]).isProcessing = false ∧
      (run noNumber (State.initial none)
        [.typeText (utf16 "a"), .submit 1 1, .newChat,
         .typeText (utf16 "b"), .submit 2 2,
         .completion 0 .fetchRejects 3 3]).inFlight.length = 1 := by
  decide

/-- C2: `sendQuery` on a question that is empty once trimmed, or while
`isProcessing` is set, returns the state it was given: no request is sent,
no message is appended, and the flag, the submit control and the question
field are as they were. -/
theorem sendQuery_noop (toNum : JsString → JsNumber) (now1 now2 : Nat) (s : State)
    (h : jsTrim s.inputValue = [] ∨ s.isProcessing = true) :
    sendQuery toNum now1 now2 s = s ∧
      (sendQuery toNum now1 now2 s).inFlight = s.inFlight ∧
      (sendQuery toNum now1 now2 s).transcript = s.transcript ∧
      (sendQuery toNum now1 now2 s).isProcessing = s.isProcessing ∧
      (sendQuery toNum now1 now2 s).sendDisabled = s.sendDisabled ∧
      (sendQuery toNum now1 now2 s).inputValue = s.inputValue := by
  rw [sendQuery_rejected toNum now1 now2 s h]
  simp

/-- A submission while a query is being processed changes nothing. -/
theorem sendQuery_noop_witness :
    sendQuery noNumber 7 7
        { State.initial none with isProcessing := true, inputValue := utf16 "again" } =
      { State.initial none with isProcessing := true, inputValue := utf16 "again" } :=
  (sendQuery_noop noNumber 7 7
    { State.initial none with isProcessing := true, inputValue := utf16 "again" }
    (Or.inr rfl)).1

/-- C3: an accepted call of `sendQuery` sets `isProcessing` and disables the
submit control, and once its network call has ended, however it ends (a body
that parses, with an ok status or not, a body that does not parse, no
response at all), `isProcessing` is false and the control is enabled; this
also holds when other events come between the call and the end of its
request. -/
theorem accepted_query_releases_gate (toNum : JsString → JsNumber) (now1 now2 : Nat)
    (s : State) (o : Outcome) (m1 m2 : Nat)
    (hq : jsTrim s.inputValue ≠ []) (hp : s.isProcessing = false) :
    (sendQuery toNum now1 now2 s).isProcessing = true ∧
      (sendQuery toNum now1 now2 s).sendDisabled = true ∧
      (complete toNum s.inFlight.length o m1 m2 (sendQuery toNum now1 now2 s)).isProcessing
        = false ∧
      (complete toNum s.inFlight.length o m1 m2 (sendQuery toNum now1 now2 s)).sendDisabled
        = false ∧
      ∀ (events : List Event) (i : Nat),
        i < (run toNum (sendQuery toNum now1 now2 s) events).inFlight.length →
        (complete toNum i o m1 m2
          (run toNum (sendQuery toNum now1 now2 s) events)).isProcessing = false ∧
        (complete toNum i o m1 m2
          (run toNum (sendQuery toNum now1 now2 s) events)).sendDisabled = false := by
  have hlen : s.inFlight.length < (sendQuery toNum now1 now2 s).inFlight.length := by
    rw [sendQuery_accepted toNum now1 now2 s hq hp]
    simp
  refine ⟨?_, ?_, (complete_flags toNum _ o m1 m2 _ hlen).1,
    (complete_flags toNum _ o m1 m2 _ hlen).2, ?_⟩
  · rw [sendQuery_accepted toNum now1 now2 s hq hp]
  · rw [sendQuery_accepted toNum now1 now2 s hq hp]
  · intro events i hi
    exact complete_flags toNum i o m1 m2 _ hi

/-- The gate closes on a first question and opens again when the body of the
response does not parse. -/
theorem accepted_query_releases_gate_witness :
    (sendQuery noNumber 1 1 { State.initial none with inputValue := utf16 "hi" }).isProcessing
        = true ∧
      (complete noNumber 0 (.jsonRejects true) 2 2
        (sendQuery noNumber 1 1
          { State.initial none with inputValue := utf16 "hi" })).isProcessing = false ∧
      (complete noNumber 0 (.jsonRejects true) 2 2
        (sendQuery noNumber 1 1
          { State.initial none with inputValue := utf16 "hi" })).sendDisabled = false :=
  have h := accepted_query_releases_gate noNumber 1 1
    { State.initial none with inputValue := utf16 "hi" } (.jsonRejects true) 2 2
    (by decide) rfl
  ⟨h.1, h.2.2.1, h.2.2.2.1⟩

/-- C4 (the code departs from it): a new chat started while the query is
outstanding empties the transcript and does not end the query (the defect of
C1), and the answer that arrives later is appended to the empty transcript:
after the turn the transcript is one assistant message, not the transcript
before the turn followed by the user message and an assistant message.  And
after a new chat, a second question and the late answer to the first, the
placeholder of the second question is in the transcript while the gate is
open: a third question asked and answered then leaves a transcript that holds
a loading placeholder. -/
theorem newChat_midturn_transcript :
    (State.initial none).transcript = [] ∧
      (run noNumber (State.initial none)
        [.ask (utf16 "hi") 1 1, .newChat,
         .completion 0 (.json true (.obj [(utf16 "answer", .str (utf16 "ok"))])) 2 2]).transcript
        = [⟨messageId 2, assistantHtml (utf16 "ok")⟩] ∧
      (run noNumber (State.initial none)
        [.ask (utf16 "a") 1 1, .newChat, .ask (utf16 "b") 2 2,
         .completion 0 (.json true (.obj [(utf16 "answer", .str (utf16 "ok"))])) 3 3]).isProcessing
        = false ∧
      ((run noNumber (State.initial none)
        [.ask (utf16 "a") 1 1, .newChat, .ask (utf16 "b") 2 2,
         .completion 0 (.json true (.obj [(utf16 "answer", .str (utf16 "ok"))])) 3 3,
         .ask (utf16 "c") 4 4,
         .completion 1 (.json true (.obj [(utf16 "answer", .str (utf16 "ok"))])) 5 5]).transcript.map
          fun m => (m.id, isLoading m)) =
        [(messageId 2, false), (loadingId 2, true), (messageId 3, false),
         (messageId 4, false), (messageId 5, false)] :=
  ⟨rfl, rfl, rfl, rfl⟩

/-- C5 (as stated, refuted): when `fetch` rejects in the millisecond of the
submission, the user message and the notice get the same id `msg-5`;
`removeMessage` of that id removes the first of them only, so the transcript
still holds a message with the id, and a second call removes that one too. -/
theorem removeMessage_same_id :
    (run noNumber (State.initial none)
        [.ask (utf16 "hi") 5 5, .completion 0 .fetchRejects 5 5]).transcript =
        [⟨messageId 5, userHtml (utf16 "hi")⟩, ⟨messageId 5, assistantHtml connectError⟩] ∧
      removeMessage (messageId 5)
          [⟨messageId 5, userHtml (utf16 "hi")⟩, ⟨messageId 5, assistantHtml connectError⟩] =
        [⟨messageId 5, assistantHtml connectError⟩] ∧
      removeMessage (messageId 5)
          (removeMessage (messageId 5)
            [⟨messageId 5, userHtml (utf16 "hi")⟩,
             ⟨messageId 5, assistantHtml connectError⟩]) = [] :=
  ⟨rfl, rfl, rfl⟩

/-- C5 (amended): `removeMessage` is a total function of the transcript and the
id.  It removes the first message with the id, if there is one, and keeps
every other message in its place; it leaves the transcript as it is when no
message has the id; and when the ids of the transcript are pairwise distinct,
the result holds no message with the id and a second call changes nothing. -/
theorem removeMessage_contract (msgId : JsString) (doc : Transcript) :
    (∀ (before after : Transcript) (m : Message),
        doc = before ++ m :: after → (∀ x ∈ before, hasId x msgId = false) →
        hasId m msgId = true → removeMessage msgId doc = before ++ after) ∧
      (removeMessage msgId doc).filter (fun m => !hasId m msgId) =
        doc.filter (fun m => !hasId m msgId) ∧
      ((∀ m ∈ doc, hasId m msgId = false) → removeMessage msgId doc = doc) ∧
      ((doc.map Message.id).Nodup →
        removeMessage msgId doc = doc.filter (fun m => !hasId m msgId) ∧
        (∀ m ∈ removeMessage msgId doc, hasId m msgId = false) ∧
        removeMessage msgId (removeMessage msgId doc) = removeMessage msgId doc) := by
  refine ⟨?_, removeMessage_keeps_others msgId doc, removeMessage_absent, ?_⟩
  · intro before after m hdoc hbefore hm
    rw [hdoc]
    exact removeMessage_append_hit before m after hbefore hm
  · intro hnd
    have hfil : removeMessage msgId doc = doc.filter (fun m => !hasId m msgId) :=
      removeMessage_eq_filter hnd
    have hnone : ∀ m ∈ removeMessage msgId doc, hasId m msgId = false := by
      intro m hm
      rw [hfil] at hm
      simpa using (List.mem_filter.mp hm).2
    exact ⟨hfil, hnone, removeMessage_absent hnone⟩

/-- The placeholder of a turn is removed from between two messages, and a
second removal finds nothing. -/
theorem removeMessage_contract_witness :
    removeMessage (loadingId 2)
        [⟨messageId 1, utf16 "q"⟩, ⟨loadingId 2, loadingHtml⟩, ⟨messageId 3, utf16 "a"⟩] =
        [⟨messageId 1, utf16 "q"⟩, ⟨messageId 3, utf16 "a"⟩] ∧
      removeMessage (loadingId 2)
          (removeMessage (loadingId 2)
            [⟨messageId 1, utf16 "q"⟩, ⟨loadingId 2, loadingHtml⟩, ⟨messageId 3, utf16 "a"⟩]) =
        removeMessage (loadingId 2)
          [⟨messageId 1, utf16 "q"⟩, ⟨loadingId 2, loadingHtml⟩, ⟨messageId 3, utf16 "a"⟩] :=
  have h := removeMessage_contract (loadingId 2)
    [⟨messageId 1, utf16 "q"⟩, ⟨loadingId 2, loadingHtml⟩, ⟨messageId 3, utf16 "a"⟩]
  ⟨h.1 [⟨messageId 1, utf16 "q"⟩] [⟨messageId 3, utf16 "a"⟩] ⟨loadingId 2, loadingHtml⟩ rfl
      (by decide) rfl,
    (h.2.2.2 (by decide)).2.2⟩

/-- C7: in every state the page reaches from a state whose stored key is not
the empty string (the settings handler, the only writer of the key, stores no
empty string), an accepted call of `sendQuery` sends one request; the
`question` of its payload is the trimmed text of the question field, and its
`api_key` is the stored key: present exactly when a key is stored, and then
equal to it; with no stored key the payload is the question alone. -/
theorem query_payload (toNum : JsString → JsNumber) (s0 : State) (events : List Event)
    (now1 now2 : Nat) (h0 : s0.storedKey ≠ some [])
    (hq : jsTrim (run toNum s0 events).inputValue ≠ [])
    (hp : (run toNum s0 events).isProcessing = false) :
    ∃ r : Request,
      (sendQuery toNum now1 now2 (run toNum s0 events)).inFlight =
        (run toNum s0 events).inFlight ++ [r] ∧
      r.payload.question = jsTrim (run toNum s0 events).inputValue ∧
      r.payload.api_key = (run toNum s0 events).storedKey ∧
      (∀ key, r.payload.api_key = some key ↔ (run toNum s0 events).storedKey = some key) ∧
      ((run toNum s0 events).storedKey = none →
        r.payload = ⟨jsTrim (run toNum s0 events).inputValue, none⟩) := by
  have hk := storedKey_run toNum s0 events h0
  have hkey : (buildPayload (jsTrim (run toNum s0 events).inputValue)
      (run toNum s0 events).storedKey).api_key = (run toNum s0 events).storedKey := by
    cases hs : (run toNum s0 events).storedKey with
    | none => rfl
    | some key =>
      cases key with
      | nil => exact absurd hs hk
      | cons a b => rfl
  have hquestion : (buildPayload (jsTrim (run toNum s0 events).inputValue)
      (run toNum s0 events).storedKey).question = jsTrim (run toNum s0 events).inputValue := by
    cases (run toNum s0 events).storedKey with
    | none => rfl
    | some key => cases key <;> rfl
  refine ⟨⟨loadingId now2, buildPayload (jsTrim (run toNum s0 events).inputValue)
    (run toNum s0 events).storedKey⟩, ?_, hquestion, hkey, ?_, ?_⟩
  · rw [sendQuery_accepted toNum now1 now2 _ hq hp]
  · intro key
    rw [hkey]
  · intro hnone
    simp [hnone, buildPayload]

/-- The example of the specification, and a key saved with blanks around it. -/
theorem query_payload_witness :
    (∃ r : Request,
      (sendQuery noNumber 1 1
        (run noNumber (State.initial none)
          [.typeText (utf16 "What is hemophilia A?")])).inFlight = [r] ∧
      r.payload = ⟨utf16 "What is hemophilia A?", none⟩) ∧
    ∃ r : Request,
      (sendQuery noNumber 1 1
        (run noNumber (State.initial none)
          [.save (utf16 " gsk_1 "), .typeText (utf16 " What is hemophilia A? ")])).inFlight
        = [r] ∧
      r.payload.question = utf16 "What is hemophilia A?" ∧
      r.payload.api_key = some (utf16 "gsk_1") :=
  have h1 := query_payload noNumber (State.initial none)
    [.typeText (utf16 "What is hemophilia A?")] 1 1 (by decide) (by decide) rfl
  have h2 := query_payload noNumber (State.initial none)
    [.save (utf16 " gsk_1 "), .typeText (utf16 " What is hemophilia A? ")] 1 1
    (by decide) (by decide) rfl
  ⟨h1.elim fun r hr => ⟨r, hr.1, hr.2.2.2.2 rfl⟩,
    h2.elim fun r hr => ⟨r, hr.1, hr.2.1, hr.2.2.1⟩⟩

/-- C8 (the code departs from it): `checkHealth` does not read the status of
the response, so a response with status 500 whose body is
`{"endee_connected": true}` marks the backend as connected. -/
theorem checkHealth_ignores_status :
    checkHealth (.json false (.obj [(utf16 "endee_connected", .bool true)]))
        ⟨⟨false, false⟩, ⟨false, false⟩⟩ =
      ⟨⟨true, false⟩, ⟨true, false⟩⟩ := by
  decide

/-- C6: the markup `addMessage` gives a user message holds, in its content
element, `<p>`, the escaped text and `</p>`; and for every source of a
`sources` array, the markup of the assistant message holds a `source-text`
element whose content is the escaped first 200 code units of the text of that
source, and the marker if there are more.  Escaped text is free of markup:
it holds no angle bracket, each of its ampersands starts one of the entities
`&amp;`, `&lt;`, `&gt;`, `&nbsp;`, and decoding the entities gives back the
text, so that `&`, `<` and `>` of the text appear as `&amp;`, `&lt;`, `&gt;`
only.  Whatever the array holds, a message that is rendered at all shows every
element in this way. -/
theorem escaped_text_in_markup (toNum : JsString → JsNumber) (now : Nat)
    (text answer : JsString) (doc : Transcript) (items : List JsVal) (srcs : List Source)
    (hsrc : List.Forall₂ readsAs items srcs) :
    addMessage toNum now (utf16 "user") (.str text) .undefined doc =
        .ok (messageId now, doc ++ [⟨messageId now,
          messageHead true ++ (utf16 "<p>" ++ escapeHtml text ++ utf16 "</p>")
            ++ messageTail []⟩]) ∧
      utf16 "<div class=\"message-content\"><p>" ++ escapeHtml text ++ utf16 "</p></div>" <:+:
        messageHead true ++ (utf16 "<p>" ++ escapeHtml text ++ utf16 "</p>")
          ++ messageTail [] ∧
      addMessage toNum now (utf16 "assistant") (.str answer) (.arr items) doc =
        .ok (messageId now, doc ++ [⟨messageId now,
          messageHead false ++ answer ++ messageTail (expectedPanel srcs)⟩]) ∧
      (∀ src ∈ srcs,
        utf16 "<div class=\"source-text\">" ++
            (escapeHtml (src.text.take 200) ++
              (if 200 < src.text.length then utf16 "..." else [])) ++ utf16 "</div>" <:+:
          messageHead false ++ answer ++ messageTail (expectedPanel srcs)) ∧
      (∀ t : JsString,
        unescapeHtml (escapeHtml t) = t ∧
        markupFree (escapeHtml t) = true ∧
        (∀ u ∈ escapeHtml t, u ≠ 60 ∧ u ≠ 62) ∧
        markupFree (escapeHtml (t.take 200) ++
          (if 200 < t.length then utf16 "..." else [])) = true) ∧
      escapeHtml [38] = [38, 97, 109, 112, 59] ∧
      escapeHtml [60] = [38, 108, 116, 59] ∧
      escapeHtml [62] = [38, 103, 116, 59] ∧
      (∀ (role : JsString) (content : JsVal) (elements : List JsVal) (msgId : JsString)
          (doc2 : Transcript),
        addMessage toNum now role content (.arr elements) doc = .ok (msgId, doc2) →
        ∃ body rendered,
          List.Forall₂ (fun s item => ∃ head t, getProp s (utf16 "text") = .ok (.str t) ∧
            item = head ++ (escapeHtml (t.take 200) ++
              (if 200 < t.length then utf16 "..." else [])) ++ sourceTail) elements rendered ∧
          doc2 = doc ++ [⟨messageId now, messageHead (role == utf16 "user") ++ body ++
            messageTail (if elements.isEmpty then []
              else sourcesPanel (decimal elements.length) rendered.flatten)⟩]) :=
  ⟨addMessage_user toNum now text doc,
    escaped_infix_userHtml text,
    addMessage_sources toNum now answer doc hsrc,
    fun _ h => shown_infix_html h false answer,
    fun t => ⟨unescapeHtml_escapeHtml t, markupFree_escapeHtml t,
      markupFree_no_bracket (markupFree_escapeHtml t), markupFree_shown t⟩,
    rfl, rfl, rfl,
    fun _ _ _ _ _ h => (addMessage_arr_shape h).elim fun body hb => hb.elim fun rendered hr =>
      ⟨body, rendered, sourceItems_shape hr.1, hr.2⟩⟩

/-- A question that holds markup, and two sources of which the second holds
markup: both texts are rendered escaped. -/
theorem escaped_text_in_markup_witness :
    escapeHtml (utf16 "<b>&</b>") = utf16 "&lt;b&gt;&amp;&lt;/b&gt;" ∧
      unescapeHtml (utf16 "&lt;b&gt;&amp;&lt;/b&gt;") = utf16 "<b>&</b>" ∧
      markupFree (utf16 "<b>&</b>") = false ∧
      utf16 "<div class=\"source-text\">" ++
          (escapeHtml ((utf16 "<b>&</b>").take 200) ++
            (if 200 < (utf16 "<b>&</b>").length then utf16 "..." else [])) ++
          utf16 "</div>" <:+:
        messageHead false ++ utf16 "ok" ++ messageTail (expectedPanel
          [⟨utf16 "guide.pdf", ⟨utf16 "3", true, true, utf16 "300.0"⟩,
              ⟨utf16 "0.842", true, true, utf16 "84.2"⟩, utf16 "plain"⟩,
            ⟨utf16 "notes.pdf", ⟨utf16 "7", true, true, utf16 "700.0"⟩,
              ⟨utf16 "0.5", true, true, utf16 "50.0"⟩, utf16 "<b>&</b>"⟩]) :=
  have h := escaped_text_in_markup noNumber 4 (utf16 "<b>&</b>") (utf16 "ok") []
    [.obj [(utf16 "source", .str (utf16 "guide.pdf")),
        (utf16 "page", .num ⟨utf16 "3", true, true, utf16 "300.0"⟩),
        (utf16 "similarity", .num ⟨utf16 "0.842", true, true, utf16 "84.2"⟩),
        (utf16 "text", .str (utf16 "plain"))],
      .obj [(utf16 "text", .str (utf16 "<b>&</b>")),
        (utf16 "source", .str (utf16 "notes.pdf")),
        (utf16 "page", .num ⟨utf16 "7", true, true, utf16 "700.0"⟩),
        (utf16 "similarity", .num ⟨utf16 "0.5", true, true, utf16 "50.0"⟩)]]
    [⟨utf16 "guide.pdf", ⟨utf16 "3", true, true, utf16 "300.0"⟩,
        ⟨utf16 "0.842", true, true, utf16 "84.2"⟩, utf16 "plain"⟩,
      ⟨utf16 "notes.pdf", ⟨utf16 "7", true, true, utf16 "700.0"⟩,
        ⟨utf16 "0.5", true, true, utf16 "50.0"⟩, utf16 "<b>&</b>"⟩]
    (.cons ⟨rfl, rfl, rfl, rfl⟩ (.cons ⟨rfl, rfl, rfl, rfl⟩ .nil))
  ⟨rfl, rfl, rfl,
    h.2.2.2.1 ⟨utf16 "notes.pdf", ⟨utf16 "7", true, true, utf16 "700.0"⟩,
      ⟨utf16 "0.5", true, true, utf16 "50.0"⟩, utf16 "<b>&</b>"⟩ (by simp)⟩

set_option maxRecDepth 100000 in
/-- C9 (as stated, refuted): a text of 150 characters outside the basic plane
has 300 code units, and it is cut after 200 of them, that is after 100
characters, and given the marker; and a text of 101 characters, a letter and
100 such characters, is cut in the middle of a character, after the first of
its two code units. -/
theorem astral_text_truncated :
    (String.mk (List.replicate 150 '😀')).length = 150 ∧
      sourceItem noNumber
          (.obj [(utf16 "source", .str (utf16 "guide.pdf")),
            (utf16 "page", .num ⟨utf16 "3", true, true, utf16 "300.0"⟩),
            (utf16 "similarity", .num ⟨utf16 "0.842", true, true, utf16 "84.2"⟩),
            (utf16 "text", .str (utf16 (String.mk (List.replicate 150 '😀'))))]) =
        .ok (sourceHead (utf16 "guide.pdf") (utf16 "3") (utf16 "84.2")
          ++ (utf16 (String.mk (List.replicate 100 '😀')) ++ utf16 "...") ++ sourceTail) ∧
      (String.mk ('a' :: List.replicate 100 '😀')).length = 101 ∧
      sourceText (utf16 (String.mk ('a' :: List.replicate 100 '😀'))) =
        utf16 (String.mk ('a' :: List.replicate 99 '😀')) ++ [55357] ++ utf16 "..." :=
  ⟨rfl, rfl, rfl, rfl⟩

/-- C9 (amended): for every source of a `sources` array, the text rendered
for it, the content of its `source-text` element, is the HTML-escaped first
200 UTF-16 code units of its text, followed by the marker `...` exactly when
the text is longer than 200 code units: a longer text gives its first 200
code units, escaped, and the marker; a text of at most 200 code units is
escaped in full, with no marker.  Escaped text holds no markup and decodes to
the text it escapes. -/
theorem source_text_truncated (toNum : JsString → JsNumber) (now : Nat) (answer : JsString)
    (doc : Transcript) (items : List JsVal) (srcs : List Source)
    (hsrc : List.Forall₂ readsAs items srcs) :
    addMessage toNum now (utf16 "assistant") (.str answer) (.arr items) doc =
        .ok (messageId now, doc ++ [⟨messageId now,
          messageHead false ++ answer ++ messageTail (expectedPanel srcs)⟩]) ∧
      (∀ src ∈ srcs,
        (200 < src.text.length →
          utf16 "<div class=\"source-text\">" ++
              (escapeHtml (src.text.take 200) ++ utf16 "...") ++ utf16 "</div>" <:+:
            messageHead false ++ answer ++ messageTail (expectedPanel srcs)) ∧
        (src.text.length ≤ 200 →
          utf16 "<div class=\"source-text\">" ++ escapeHtml src.text ++ utf16 "</div>" <:+:
            messageHead false ++ answer ++ messageTail (expectedPanel srcs))) ∧
      (∀ t : JsString,
        (200 < t.length →
          sourceText t = escapeHtml (t.take 200) ++ utf16 "..." ∧
          (t.take 200).length = 200 ∧
          unescapeHtml (sourceText t) = t.take 200 ++ utf16 "...") ∧
        (t.length ≤ 200 → sourceText t = escapeHtml t ∧ unescapeHtml (sourceText t) = t) ∧
        (sourceText t = escapeHtml (t.take 200) ++ utf16 "..." ↔ 200 < t.length) ∧
        unescapeHtml (escapeHtml t) = t ∧
        markupFree (escapeHtml t) = true) := by
  refine ⟨addMessage_sources toNum now answer doc hsrc, ?_, ?_⟩
  · intro src hmem
    have hin := shown_infix_html hmem false answer
    constructor
    · intro hlong
      simpa [Source.shownText, hlong] using hin
    · intro hshort
      have h2 : ¬ 200 < src.text.length := by omega
      simpa [Source.shownText, h2, List.take_of_length_le hshort] using hin
  · intro t
    refine ⟨?_, ?_, ?_, unescapeHtml_escapeHtml t, markupFree_escapeHtml t⟩
    · intro h
      have hs : sourceText t = escapeHtml (t.take 200) ++ utf16 "..." := by
        simp [sourceText, h]
      refine ⟨hs, ?_, ?_⟩
      · rw [List.length_take]
        omega
      · rw [hs, unescapeHtml_escapeHtml_append]
        rfl
    · intro h
      have h2 : ¬ 200 < t.length := by omega
      have hs : sourceText t = escapeHtml t := by
        simp [sourceText, h2, List.take_of_length_le h]
      exact ⟨hs, by rw [hs, unescapeHtml_escapeHtml]⟩
    · constructor
      · intro h
        by_contra hle
        have hm : ([] : JsString) = utf16 "..." := by
          simp only [sourceText, hle, if_false] at h
          exact List.append_cancel_left h
        exact absurd hm (by decide)
      · intro h
        simp [sourceText, h]

set_option maxRecDepth 100000 in
/-- The example of the specification: a source text of 250 letters `A` is
rendered as 200 letters `A` and the marker. -/
theorem source_text_truncated_witness :
    utf16 "<div class=\"source-text\">" ++
        (escapeHtml ((List.replicate 250 65).take 200) ++ utf16 "...") ++ utf16 "</div>" <:+:
      messageHead false ++ utf16 "<p>ok</p>" ++ messageTail (expectedPanel
        [⟨utf16 "guide.pdf", ⟨utf16 "3", true, true, utf16 "300.0"⟩,
          ⟨utf16 "0.842", true, true, utf16 "84.2"⟩, List.replicate 250 65⟩]) ∧
      escapeHtml ((List.replicate 250 65).take 200) = List.replicate 200 65 :=
  have h := source_text_truncated noNumber 4 (utf16 "<p>ok</p>") []
    [.obj [(utf16 "source", .str (utf16 "guide.pdf")),
      (utf16 "page", .num ⟨utf16 "3", true, true, utf16 "300.0"⟩),
      (utf16 "similarity", .num ⟨utf16 "0.842", true, true, utf16 "84.2"⟩),
      (utf16 "text", .str (List.replicate 250 65))]]
    [⟨utf16 "guide.pdf", ⟨utf16 "3", true, true, utf16 "300.0"⟩,
      ⟨utf16 "0.842", true, true, utf16 "84.2"⟩, List.replicate 250 65⟩]
    (.cons ⟨rfl, rfl, rfl, rfl⟩ .nil)
  ⟨(h.2.1 ⟨utf16 "guide.pdf", ⟨utf16 "3", true, true, utf16 "300.0"⟩,
      ⟨utf16 "0.842", true, true, utf16 "84.2"⟩, List.replicate 250 65⟩ (by simp)).1
      (by simp), rfl⟩

set_option maxRecDepth 100000 in
/-- C10 (as stated, refuted): a response with an error status whose body is the
JSON value `null` parses, the read of `data.error` throws, and the message
appended for the turn is the notice of the `catch` block, which does not hold
the generic message.  And a body whose `error` is `true` has no error string,
yet the notice shows `true` and not the generic message. -/
theorem unexpected_body_notice :
    (complete noNumber 0 (.json false .null) 2 3
        (sendQuery noNumber 1 1
          { State.initial none with inputValue := utf16 "hi" })).transcript.getLast? =
        some ⟨messageId 3, assistantHtml connectError⟩ ∧
      ¬ genericError <:+: assistantHtml connectError ∧
      (complete noNumber 0 (.json false (.obj [(utf16 "error", .bool true)])) 2 3
        (sendQuery noNumber 1 1
          { State.initial none with inputValue := utf16 "hi" })).transcript.getLast? =
        some ⟨messageId 2, assistantHtml (errorNotice (utf16 "true"))⟩ ∧
      ¬ genericError <:+: assistantHtml (errorNotice (utf16 "true")) :=
  ⟨rfl, by decide, rfl, by decide⟩

/-- C10 (amended): for an accepted call of `sendQuery` whose response has an
error status and a body that parses to a value other than `null`, the
message appended for the turn is the error notice around the error string of
the body when `data.error` is a string that is not empty, and the error
notice around `Something went wrong. Please try again.` when `data.error` is
absent or falsy; the notice holds that string. -/
theorem error_notice (toNum : JsString → JsNumber) (now1 now2 : Nat) (s : State)
    (data err : JsVal) (m1 m2 : Nat)
    (hq : jsTrim s.inputValue ≠ []) (hp : s.isProcessing = false)
    (herr : getProp data (utf16 "error") = .ok err) :
    (∀ text, err = .str text → text ≠ [] →
        (complete toNum s.inFlight.length (.json false data) m1 m2
          (sendQuery toNum now1 now2 s)).transcript.getLast? =
          some ⟨messageId m1, assistantHtml (errorNotice text)⟩ ∧
        text <:+: assistantHtml (errorNotice text)) ∧
      (truthy err = false →
        (complete toNum s.inFlight.length (.json false data) m1 m2
          (sendQuery toNum now1 now2 s)).transcript.getLast? =
          some ⟨messageId m1, assistantHtml (errorNotice genericError)⟩ ∧
        genericError <:+: assistantHtml (errorNotice genericError)) := by
  constructor
  · intro text htext hne
    rw [htext] at herr
    rw [turn_handled toNum now1 now2 s _ m1 m2 hq hp,
      handleOutcome_notice toNum _ data _ m1 m2 _ (errorContent_text herr hne),
      List.getLast?_concat]
    exact ⟨rfl, infix_assistantHtml_errorNotice text⟩
  · intro hf
    rw [turn_handled toNum now1 now2 s _ m1 m2 hq hp,
      handleOutcome_notice toNum _ data _ m1 m2 _ (errorContent_generic herr hf),
      List.getLast?_concat]
    exact ⟨rfl, infix_assistantHtml_errorNotice genericError⟩

/-- The example of the specification: status 500 with the body
`{"error": "index unavailable"}`. -/
theorem error_notice_witness :
    (complete noNumber 0
        (.json false (.obj [(utf16 "error", .str (utf16 "index unavailable"))])) 2 3
        (sendQuery noNumber 1 1
          { State.initial none with inputValue := utf16 "hi" })).transcript.getLast? =
        some ⟨messageId 2, assistantHtml (errorNotice (utf16 "index unavailable"))⟩ ∧
      utf16 "index unavailable" <:+:
        assistantHtml (errorNotice (utf16 "index unavailable")) :=
  (error_notice noNumber 1 1 { State.initial none with inputValue := utf16 "hi" }
    (.obj [(utf16 "error", .str (utf16 "index unavailable"))])
    (.str (utf16 "index unavailable")) 2 3 (by decide) rfl rfl).1
    (utf16 "index unavailable") rfl (by decide)

end HemaV
